import Mathlib

/-!
# Verification of the spreadsheet preprocessing / formula-evaluation core

Shallow embedding of the Python sources of the qc-task-support-program
repository, restricted to the parts the verified claims are about:

* `src/src/gui/models.py`   — `ExcelSheetModel` (grid model, dirty overlay,
  merge cache, undo/redo, display-time formula evaluator);
* `src/src/excel_processor.py` — merged-anchor-safe cell writes,
  `add_sum_rows`, `preprocess_inplace`;
* `src/src/utils.py`        — `guess_last_data_row`;
* `src/src/gui/pages/main_page.py` — `MainPage.on_preprocess_clicked`
  (the "already preprocessed" guard).

Modelling conventions:

* Python dynamic cell values become the tagged type `Value`
  (`None`/`bool`/`int`/`float`/`str`).  Python floats are modelled as exact
  rationals (`ℚ`); the evaluator's arithmetic (`a * (b / denom)`, running
  sums) is translated to exact rational arithmetic.  `float("inf")`,
  `float("nan")` and underscore digit separators are outside the model.
* Python `dict` with tuple keys becomes an association list with
  replace-in-place-or-append update, matching insertion-order semantics.
* Python `deque(maxlen=100)` becomes a list with the top of the stack at the
  head; appending drops the oldest (last) element once 100 entries exist.
* Python `==` between numbers of different types (`5 == 5.0 == True`) is
  numeric; `pyEq` reproduces this where the source compares cell values.
* Exceptions become `Option`/explicit fallbacks: every `try/except` of the
  source corresponds to a `match … with | none => fallback`.
* The display evaluator can recurse through cell references
  (`_display_value` → `_eval_sum` → `_read_number_from_cell` →
  `_display_value`); Python bounds this with its recursion limit, whose
  `RecursionError` is caught by the surrounding `except` clauses.  The
  embedding uses an explicit fuel argument, decremented at every call into
  the recursive block, with the same literal-text / zero fallbacks.
-/

namespace QcTask

/-- Tagged variant for an openpyxl cell value as the Python code sees it:
`None`, `bool`, `int`, `float` (modelled as `ℚ`) or `str`. -/
inductive Value where
  | vnone
  | vbool (b : Bool)
  | vint (n : Int)
  | vfloat (q : ℚ)
  | vstr (s : String)
deriving DecidableEq, Repr

namespace Value

/-- Python numeric view: `bool` is an `int` subclass, so `isinstance(v, (int, float))`
is true for booleans, and `float(True) = 1.0`. -/
def toNum? : Value → Option ℚ
  | vint n => some (n : ℚ)
  | vfloat q => some q
  | vbool b => some (if b then 1 else 0)
  | _ => none

/-- `isinstance(v, (int, float))` (true for `bool` as well, a Python `int` subclass). -/
def isNumLike (v : Value) : Bool := v.toNum?.isSome

end Value

/-- Python `==` on cell values: numbers (including `bool`) compare numerically
(`5 == 5.0` is `True`), everything else structurally. -/
def pyEq (a b : Value) : Bool :=
  match a.toNum?, b.toNum? with
  | some x, some y => x = y
  | _, _ => a = b

/-- `_is_blank(v)` of `excel_processor.py` / the `v in (None, "")` test of
`utils.guess_last_data_row`: blank iff `None` or the empty string
(`isinstance(v, str) and v.strip() == ""` for the processor variant is kept
separate, see `isBlankStr`). -/
def isBlankNoneOrEmpty (v : Value) : Bool :=
  v = Value.vnone || v = Value.vstr ""

/-! ## Python string primitives

Kernel-reducible re-implementations of the string operations the source
uses (`strip`, `replace`, `in`, `startswith`, `upper`, `lower`), working on
the character list of the string.  `Char.isWhitespace` stands in for
Python's whitespace class. -/

/-- Skip leading whitespace (`\s*`, and the left half of `str.strip`). -/
def skipWS : List Char → List Char
  | ch :: rest => if ch.isWhitespace then skipWS rest else ch :: rest
  | [] => []

/-- Python `s.strip()`. -/
def pyStrip (s : String) : String :=
  String.mk ((skipWS (skipWS s.data).reverse).reverse)

/-- Replace every non-overlapping occurrence of `pat`, left to right
(Python `s.replace(pat, rep)`; the sources only use non-empty patterns).
A positive `skip` counter consumes the remainder of a match already
emitted, keeping the recursion structural on the character list. -/
def replaceAux (pat rep : List Char) : List Char → Nat → List Char
  | [], _ => []
  | _ :: rest, skip + 1 => replaceAux pat rep rest skip
  | ch :: rest, 0 =>
    if pat ≠ [] ∧ pat.isPrefixOf (ch :: rest) then
      rep ++ replaceAux pat rep rest (pat.length - 1)
    else ch :: replaceAux pat rep rest 0

/-- Python `s.replace(pat, rep)`. -/
def strReplace (s pat rep : String) : String :=
  String.mk (replaceAux pat.data rep.data s.data 0)

/-- Python `s.startswith(pre)`. -/
def strStartsWith (s pre : String) : Bool :=
  pre.data.isPrefixOf s.data

/-- Python `ch in s` for a single character. -/
def strContainsChar (s : String) (ch : Char) : Bool :=
  s.data.contains ch

/-- Substring test on character lists (Python `sub in s`; the empty string
is a substring of everything). -/
def listContainsSub : List Char → List Char → Bool
  | l, sub =>
    sub.isPrefixOf l ||
      match l with
      | [] => false
      | _ :: t => listContainsSub t sub

/-- Python `sub in s`. -/
def strContainsSub (s sub : String) : Bool :=
  listContainsSub s.data sub.data

/-- Python `s.upper()` (ASCII; the Korean header text is unaffected, as in
Python). -/
def strToUpper (s : String) : String :=
  String.mk (s.data.map Char.toUpper)

/-- Python `s.lower()`. -/
def strToLower (s : String) : String :=
  String.mk (s.data.map Char.toLower)

/-- `_is_blank` of `excel_processor.py`: `v is None or (isinstance(v, str) and v.strip() == "")`. -/
def isBlankStr : Value → Bool
  | Value.vnone => true
  | Value.vstr s => pyStrip s = ""
  | _ => false

/-! ## Association lists standing in for Python `dict` -/

/-- Python `dict` lookup `d.get(k)`. -/
def alGet {κ α : Type} [DecidableEq κ] (d : List (κ × α)) (k : κ) : Option α :=
  match d.find? (fun p => p.1 = k) with
  | some p => some p.2
  | none => none

/-- Python `dict` assignment `d[k] = v`: replaces in place when the key is
present, appends otherwise (insertion order preserved). -/
def alInsert {κ α : Type} [DecidableEq κ] (d : List (κ × α)) (k : κ) (v : α) :
    List (κ × α) :=
  match d with
  | [] => [(k, v)]
  | p :: rest => if p.1 = k then (k, v) :: rest else p :: alInsert rest k v

/-- Python `del d[k]` (used only after a `k in d` check, so removing a
missing key is a no-op here). -/
def alErase {κ α : Type} [DecidableEq κ] (d : List (κ × α)) (k : κ) :
    List (κ × α) :=
  match d with
  | [] => []
  | p :: rest => if p.1 = k then rest else p :: alErase rest k

/-- The keys of an association list. -/
def alKeys {κ α : Type} (d : List (κ × α)) : List κ := d.map Prod.fst

/-- Decidable "same keys and same value at every key" comparison of two
overlays (Python dict equality ignoring insertion order). -/
def alEquiv {κ α : Type} [DecidableEq κ] [DecidableEq α]
    (d e : List (κ × α)) : Bool :=
  (alKeys d).all (fun k => alGet d k = alGet e k) &&
  (alKeys e).all (fun k => alGet d k = alGet e k)

/-! ## Worksheet and merge ranges -/

/-- An openpyxl merge range; `bounds` destructures as
`(min_col, min_row, max_col, max_row)` in the source. -/
structure MergeRange where
  minRow : Nat
  minCol : Nat
  maxRow : Nat
  maxCol : Nat
deriving DecidableEq, Repr

/-- Does the range contain 1-based cell `(r, c)`? -/
def MergeRange.containsCell (mr : MergeRange) (r c : Nat) : Bool :=
  mr.minRow ≤ r && r ≤ mr.maxRow && mr.minCol ≤ c && c ≤ mr.maxCol

/-- An openpyxl worksheet as the claims need it: 1-based sparse cells
(missing cells read as `None`), dimensions, and the merged-cell ranges. -/
structure Worksheet where
  maxRow : Nat
  maxCol : Nat
  cells : List ((Nat × Nat) × Value)
  merges : List MergeRange
deriving DecidableEq, Repr

/-- `ws.cell(row=r, column=c).value` (a never-written cell reads `None`). -/
def Worksheet.cellValue (ws : Worksheet) (r c : Nat) : Value :=
  (alGet ws.cells (r, c)).getD Value.vnone

/-- Writing `ws.cell(row=r, column=c).value = v`; openpyxl extends the
sheet dimensions when writing past them. -/
def Worksheet.setCell (ws : Worksheet) (r c : Nat) (v : Value) : Worksheet :=
  { ws with
    cells := alInsert ws.cells (r, c) v
    maxRow := max ws.maxRow r
    maxCol := max ws.maxCol c }

/-! ## Merge cache of `ExcelSheetModel` (`_build_merge_cache`) -/

/-- The `_merge_top_left` cache: cell → anchor of the containing merge range.
The Python cache is written range by range, so on (invariantly absent)
overlaps the later range would win; `find?` over the reversed list mirrors
that last-write-wins order. -/
def mergeTopLeft (ws : Worksheet) (r c : Nat) : Option (Nat × Nat) :=
  match ws.merges.reverse.find? (fun mr => mr.containsCell r c) with
  | some mr => some (mr.minRow, mr.minCol)
  | none => none

/-- `_canonical_cell(r, c)`: the anchor when inside a merge range, else itself. -/
def canonicalCell (ws : Worksheet) (r c : Nat) : Nat × Nat :=
  (mergeTopLeft ws r c).getD (r, c)

/-- `_is_merged_non_topleft(r, c)`. -/
def isMergedNonTopLeft (ws : Worksheet) (r c : Nat) : Bool :=
  match mergeTopLeft ws r c with
  | some top => top ≠ (r, c)
  | none => false

/-- The `_merge_bounds_by_top` cache: anchor → bounds. -/
def mergeBoundsByTop (ws : Worksheet) (top : Nat × Nat) :
    Option (Nat × Nat × Nat × Nat) :=
  match ws.merges.reverse.find? (fun mr => (mr.minRow, mr.minCol) = top) with
  | some mr => some (mr.minRow, mr.minCol, mr.maxRow, mr.maxCol)
  | none => none

/-! ## Exact rational arithmetic

Python float arithmetic is modelled exactly over `ℚ`.  The standard `Rat`
operations are `@[irreducible]`, which would block evaluating the model on
concrete inputs, so the few operations the code needs are spelled out via
`Rat.divInt`; the `ratAdd_eq`-family lemmas below identify them with the
standard ones. -/

/-- `a + b` on `ℚ`, kernel-reducible. -/
def ratAdd (a b : ℚ) : ℚ :=
  Rat.divInt (a.num * b.den + b.num * a.den) (a.den * b.den)

/-- `a * b` on `ℚ`, kernel-reducible. -/
def ratMul (a b : ℚ) : ℚ :=
  Rat.divInt (a.num * b.num) (a.den * b.den)

/-- `a⁻¹` on `ℚ`, kernel-reducible. -/
def ratInv (a : ℚ) : ℚ :=
  Rat.divInt a.den a.num

/-- `a / b` on `ℚ`, kernel-reducible (`b = 0` yields `0`; the translation
guards actual division by zero separately, mirroring `ZeroDivisionError`). -/
def ratDiv (a b : ℚ) : ℚ :=
  ratMul a (ratInv b)

/-- `a ^ n` on `ℚ`, kernel-reducible. -/
def ratPow (a : ℚ) : Nat → ℚ
  | 0 => 1
  | n + 1 => ratMul (ratPow a n) a

/-- `a ^ z` for an integer exponent, kernel-reducible. -/
def ratZPow (a : ℚ) (z : Int) : ℚ :=
  if 0 ≤ z then ratPow a z.toNat else ratInv (ratPow a z.natAbs)

/-! ## Number parsing (`float(...)` / `int(...)` on strings) -/

/-- Digits of a decimal string prefix. -/
def takeDigits : List Char → (List Char × List Char)
  | [] => ([], [])
  | ch :: rest =>
    if ch.isDigit then
      let (ds, rs) := takeDigits rest
      (ch :: ds, rs)
    else ([], ch :: rest)

/-- Numeric value of a digit list (most significant first). -/
def digitsToNat (ds : List Char) : Nat :=
  ds.foldl (fun acc ch => acc * 10 + (ch.toNat - 48)) 0

/-- Python `int(s)` on an already-stripped string: optional sign then one or
more decimal digits; anything else raises `ValueError` (`none`). -/
def pyParseInt (s : String) : Option Int :=
  let l := (pyStrip s).data
  let (sign, l) : Int × List Char :=
    match l with
    | '-' :: rest => (-1, rest)
    | '+' :: rest => (1, rest)
    | _ => (1, l)
  match takeDigits l with
  | ([], _) => none
  | (ds, []) => some (sign * (digitsToNat ds : Int))
  | (_, _ :: _) => none

/-- Python `float(s)`: optional sign, then `digits[.digits] | .digits`,
optionally an exponent, surrounding whitespace allowed (`float` strips).
`inf`/`nan`/underscores are outside the model. -/
def pyParseFloat (s : String) : Option ℚ :=
  let l := (pyStrip s).data
  let (sign, l) : ℚ × List Char :=
    match l with
    | '-' :: rest => (-1, rest)
    | '+' :: rest => (1, rest)
    | _ => (1, l)
  let (ipart, l) := takeDigits l
  let (fpart, l) : List Char × List Char :=
    match l with
    | '.' :: rest => takeDigits rest
    | _ => ([], l)
  if ipart.isEmpty && fpart.isEmpty then none
  else
    let mantissa : ℚ :=
      ratAdd (digitsToNat ipart : ℚ)
        (ratDiv (digitsToNat fpart : ℚ) (ratPow 10 fpart.length))
    let expPart : Option (ℚ × List Char) :=
      match l with
      | 'e' :: rest | 'E' :: rest =>
        let (esign, rest) : Int × List Char :=
          match rest with
          | '-' :: r2 => (-1, r2)
          | '+' :: r2 => (1, r2)
          | _ => (1, rest)
        match takeDigits rest with
        | ([], _) => none
        | (ds, rest2) => some (ratZPow 10 (esign * (digitsToNat ds : Int)), rest2)
      | _ => some (1, l)
    match expPart with
    | none => none
    | some (e, rest) =>
      -- "12." is valid, "12.x" leaves 'x' in rest and is rejected here
      if rest.isEmpty then some (ratMul (ratMul sign mantissa) e) else none

/-! ## `ExcelSheetModel` state and `setData` (`src/src/gui/models.py`) -/

/-- One entry of the undo/redo history:
`{'row': r, 'col': c, 'old_value': old, 'new_value': new}`. -/
structure EditRecord where
  row : Nat
  col : Nat
  oldValue : Value
  newValue : Value
deriving DecidableEq, Repr

/-- `deque(maxlen=100).append(rec)` with the top of the stack at the head of
the list: cons, then drop the oldest entry (the last) beyond 100. -/
def dequePush (stack : List EditRecord) (rec : EditRecord) : List EditRecord :=
  (rec :: stack).take 100

/-- The mutable state of `ExcelSheetModel`.  `proxyModel` is the filter
oracle (`filterAcceptsRow` over 0-based source rows), `none` when no proxy
is attached. -/
structure Model where
  ws : Worksheet
  maxRow : Nat
  maxCol : Nat
  dirty : List ((Nat × Nat) × Value)
  editAll : Bool
  editableCols : List Nat
  proxyModel : Option (Nat → Bool)
  undoStack : List EditRecord
  redoStack : List EditRecord
  isUndoing : Bool

/-- `_find_chargeback_rate_cols`: scan header row 1 for "구상"+"율" or
"chargeback"+"rate" columns. -/
def findChargebackRateCols (ws : Worksheet) : List Nat :=
  (List.range' 1 ws.maxCol).filter fun c =>
    match ws.cellValue 1 c with
    | Value.vstr hv =>
      hv ≠ "" &&
        (let s := strReplace hv " " ""
         (strContainsSub s "구상" && strContainsSub s "율") ||
           (strContainsSub (strToLower hv) "chargeback" &&
             strContainsSub (strToLower hv) "rate"))
    | _ => false

/-- `ExcelSheetModel.__init__`: fresh model over a worksheet. -/
def mkModel (ws : Worksheet) : Model :=
  { ws := ws
    maxRow := ws.maxRow
    maxCol := ws.maxCol
    dirty := []
    editAll := false
    editableCols := findChargebackRateCols ws
    proxyModel := none
    undoStack := []
    redoStack := []
    isUndoing := false }

/-- The effective (overlay-then-sheet) value of a cell:
`self.dirty.get((r, c), self.ws.cell(row=r, column=c).value)`. -/
def effectiveValue (m : Model) (p : Nat × Nat) : Value :=
  (alGet m.dirty p).getD (m.ws.cellValue p.1 p.2)

/-- `setData`'s reading of the pre-edit value:
`old_val = self.dirty.get((cr, cc))`, falling back to the worksheet when
that is `None` — note an overlay entry explicitly holding `None` also falls
back, exactly as the Python `is None` test does. -/
def effectiveOld (m : Model) (p : Nat × Nat) : Value :=
  let ov0 := (alGet m.dirty p).getD Value.vnone
  if ov0 = Value.vnone then m.ws.cellValue p.1 p.2 else ov0

/-- `_parse_user_input(value)`: strip; empty → `None`; drop commas; with a
dot try `float`, else try `int`; on `ValueError` keep the stripped text. -/
def parseUserInput (value : String) : Value :=
  let text := pyStrip value
  if text = "" then Value.vnone
  else
    let raw := strReplace text "," ""
    if strContainsChar raw '.' then
      match pyParseFloat raw with
      | some q => Value.vfloat q
      | none => Value.vstr text
    else
      match pyParseInt raw with
      | some n => Value.vint n
      | none => Value.vstr text

/-- `setData(index, value, role=EditRole)` for a valid index, with
`(r, c) = (index.row()+1, index.column()+1)`.  Returns the updated model and
the boolean result.  (The `dataChanged` signal emission has no model-state
effect and is not represented.) -/
def setData (m : Model) (r c : Nat) (value : String) : Model × Bool :=
  if r = 1 then (m, false)
  else
    let cp := canonicalCell m.ws r c
    if isMergedNonTopLeft m.ws r c then (m, false)
    else if !m.editAll && !(m.editableCols.contains cp.2) then (m, false)
    else
      let oldVal := effectiveOld m cp
      let newVal := parseUserInput value
      let m1 :=
        if !m.isUndoing && !pyEq oldVal newVal then
          { m with
            undoStack := dequePush m.undoStack ⟨cp.1, cp.2, oldVal, newVal⟩
            redoStack := [] }
        else m
      ({ m1 with dirty := alInsert m1.dirty cp newVal }, true)

/-- `undo()`: pop the top edit, push it on the redo stack, restore the old
value in the overlay (deleting the key when the old value was `None`). -/
def undo (m : Model) : Model × Bool :=
  match m.undoStack with
  | [] => (m, false)
  | rec :: rest =>
    let dirty' :=
      if rec.oldValue = Value.vnone then alErase m.dirty (rec.row, rec.col)
      else alInsert m.dirty (rec.row, rec.col) rec.oldValue
    ({ m with
        undoStack := rest
        redoStack := rec :: m.redoStack
        dirty := dirty'
        isUndoing := false }, true)

/-- `redo()`: pop the top redo entry, push it back on the undo stack, apply
the new value to the overlay (a `None` new value is stored, not deleted). -/
def redo (m : Model) : Model × Bool :=
  match m.redoStack with
  | [] => (m, false)
  | rec :: rest =>
    ({ m with
        redoStack := rest
        undoStack := rec :: m.undoStack
        dirty := alInsert m.dirty (rec.row, rec.col) rec.newValue
        isUndoing := false }, true)

/-! ## Formula text parsing

Hand-rolled recognisers for the exact regular expressions of the source:
* `r"([A-Z]{1,3})(\d+)"`   (fullmatch, `_addr_to_row_col` / `_read_number`)
* `r"=\s*([A-Z]{1,3}\d+)\s*"` (fullmatch, IGNORECASE, bare reference)
* `r"=\s*(ref)\s*\*\s*\(\s*(ref)\s*/\s*(\d+(\.\d+)?)\s*\)\s*"` (fullmatch,
  IGNORECASE, `_eval_simple_mul_div`)
* `r"SUM\s*\(\s*(ref)\s*:\s*(ref)\s*\)"` and
  `r"SUBTOTAL\s*\(\s*9\s*,\s*(ref)\s*:\s*(ref)\s*\)"` (search, IGNORECASE).
The letter/digit split needs no backtracking, so greedy scanning is exact
(`skipWS` above doubles as `\s*`). -/

/-- ASCII letters `[A-Za-z]` (IGNORECASE form of `[A-Z]`). -/
def isRefLetter (ch : Char) : Bool :=
  ('A' ≤ ch && ch ≤ 'Z') || ('a' ≤ ch && ch ≤ 'z')

/-- Greedily take reference letters. -/
def takeRefLetters : List Char → (List Char × List Char)
  | [] => ([], [])
  | ch :: rest =>
    if isRefLetter ch then
      let (ls, rs) := takeRefLetters rest
      (ch :: ls, rs)
    else ([], ch :: rest)

/-- Match `[A-Z]{1,3}\d+` (IGNORECASE) at the front; returns the matched
text uppercased (as `.group(1).upper()` does) and the rest. -/
def matchCellRef (l : List Char) : Option (String × List Char) :=
  let (ls, l1) := takeRefLetters l
  if ls.length < 1 || 3 < ls.length then none
  else
    match takeDigits l1 with
    | ([], _) => none
    | (ds, l2) => some (String.mk (ls.map Char.toUpper ++ ds), l2)

/-- Match one literal character. -/
def matchChar (c : Char) : List Char → Option (List Char)
  | ch :: rest => if ch = c then some rest else none
  | [] => none

/-- Match a literal string case-insensitively (for `SUM` / `SUBTOTAL`). -/
def matchCI : List Char → List Char → Option (List Char)
  | [], l => some l
  | _ :: _, [] => none
  | p :: ps, ch :: rest =>
    if ch.toUpper = p.toUpper then matchCI ps rest else none

/-- `re.fullmatch(r"([A-Z]{1,3})(\d+)", addr)` of `_addr_to_row_col` /
`_read_number` (both receive the address already uppercased, and the
`[A-Z]` class is honoured by `matchCellRef`'s letter check).  Returns
`(row, col)` with the usual base-26 column value. -/
def addrToRowCol (addr : String) : Option (Nat × Nat) :=
  let l := (strToUpper addr).data
  let (ls, l1) := takeRefLetters l
  if ls.length < 1 || 3 < ls.length then none
  else
    match takeDigits l1 with
    | ([], _) => none
    | (ds, rest) =>
      if rest.isEmpty then
        let col := ls.foldl (fun acc ch => acc * 26 + (ch.toNat - 64)) 0
        some (digitsToNat ds, col)
      else none

/-- `_read_number`'s own fullmatch, which is case-sensitive `[A-Z]` and
returns `0.0` instead of raising when it fails. -/
def addrToRowColUpperOnly (addr : String) : Option (Nat × Nat) :=
  let l := addr.data
  if l.all (fun ch => ('A' ≤ ch && ch ≤ 'Z') || ch.isDigit) then
    addrToRowCol addr
  else none

/-- Fullmatch of the bare-reference pattern `=\s*([A-Z]{1,3}\d+)\s*`. -/
def bareRefParse (s : String) : Option String := do
  let l ← matchChar '=' s.data
  let (addr, l) ← matchCellRef (skipWS l)
  if (skipWS l).isEmpty then some addr else none

/-- `\d+(\.\d+)?` as an exact rational (the divisor of the multiplicative
pattern, converted with `float(...)`). -/
def matchDivisor (l : List Char) : Option (ℚ × List Char) :=
  match takeDigits l with
  | ([], _) => none
  | (ds, l1) =>
    match l1 with
    | '.' :: l2 =>
      match takeDigits l2 with
      | ([], _) => none
      | (fs, l3) =>
        some (ratAdd (digitsToNat ds : ℚ)
          (ratDiv (digitsToNat fs : ℚ) (ratPow 10 fs.length)), l3)
    | _ => some ((digitsToNat ds : ℚ), l1)

/-- Fullmatch of `=\s*ref\s*\*\s*\(\s*ref\s*/\s*(\d+(\.\d+)?)\s*\)\s*`
(`_eval_simple_mul_div`'s pattern). -/
def mulDivParse (s : String) : Option (String × String × ℚ) := do
  let l ← matchChar '=' s.data
  let (a, l) ← matchCellRef (skipWS l)
  let l ← matchChar '*' (skipWS l)
  let l ← matchChar '(' (skipWS l)
  let (b, l) ← matchCellRef (skipWS l)
  let l ← matchChar '/' (skipWS l)
  let (denom, l) ← matchDivisor (skipWS l)
  let l ← matchChar ')' (skipWS l)
  if (skipWS l).isEmpty then some (a, b, denom) else none

/-- Try `SUM\s*\(\s*ref\s*:\s*ref\s*\)` at the current position. -/
def sumAt (l : List Char) : Option (String × String) := do
  let l ← matchCI "SUM".data l
  let l ← matchChar '(' (skipWS l)
  let (a, l) ← matchCellRef (skipWS l)
  let l ← matchChar ':' (skipWS l)
  let (b, l) ← matchCellRef (skipWS l)
  let _ ← matchChar ')' (skipWS l)
  some (a, b)

/-- `re.search` of the `SUM` pattern: first position where it matches. -/
def sumSearchAux : List Char → Option (String × String)
  | [] => none
  | ch :: rest =>
    match sumAt (ch :: rest) with
    | some r => some r
    | none => sumSearchAux rest

/-- `re.search(r"SUM\s*\(\s*(ref)\s*:\s*(ref)\s*\)", formula, IGNORECASE)`. -/
def sumSearch (s : String) : Option (String × String) := sumSearchAux s.data

/-- Try `SUBTOTAL\s*\(\s*9\s*,\s*ref\s*:\s*ref\s*\)` at the current position. -/
def subtotalAt (l : List Char) : Option (String × String) := do
  let l ← matchCI "SUBTOTAL".data l
  let l ← matchChar '(' (skipWS l)
  let l ← matchChar '9' (skipWS l)
  let l ← matchChar ',' (skipWS l)
  let (a, l) ← matchCellRef (skipWS l)
  let l ← matchChar ':' (skipWS l)
  let (b, l) ← matchCellRef (skipWS l)
  let _ ← matchChar ')' (skipWS l)
  some (a, b)

/-- `re.search` of the `SUBTOTAL(9, …)` pattern. -/
def subtotalSearchAux : List Char → Option (String × String)
  | [] => none
  | ch :: rest =>
    match subtotalAt (ch :: rest) with
    | some r => some r
    | none => subtotalSearchAux rest

/-- First match of the `SUBTOTAL(9, …)` pattern anywhere in the string. -/
def subtotalSearch (s : String) : Option (String × String) := subtotalSearchAux s.data

/-! ## Display-time formula evaluator -/

/-- `_is_row_visible(row)`: everything visible without a proxy; otherwise
`filterAcceptsRow(row - 1)` (0-based source row; a non-positive source row
is visible without consulting the proxy). -/
def isRowVisible (m : Model) (row : Nat) : Bool :=
  match m.proxyModel with
  | none => true
  | some accepts => if row = 0 then true else accepts (row - 1)

/-- `_read_number(addr)` (used by the multiplicative pattern): parse the
address (returning `0.0` when the fullmatch fails), canonicalise through the
merge cache, read overlay-then-sheet, coerce to float with comma stripping,
`0.0` for anything non-numeric. -/
def readNumber (m : Model) (addr : String) : ℚ :=
  match addrToRowColUpperOnly addr with
  | none => 0
  | some (row, col) =>
    let p := canonicalCell m.ws row col
    match effectiveValue m p with
    | Value.vnone => 0
    | Value.vstr s => (pyParseFloat (strReplace (pyStrip s) "," "")).getD 0
    | v => (Value.toNum? v).getD 0

/-- `_eval_simple_mul_div`: the fixed `=ref*(ref/denom)` pattern, exact
rational arithmetic; a zero divisor raises `ZeroDivisionError` in Python
(captured as `none`, so the caller falls back to the literal text). -/
def evalSimpleMulDiv (m : Model) (s : String) : Option ℚ :=
  match mulDivParse s with
  | none => none
  | some (a, b, denom) =>
    if denom = 0 then none
    else some (ratMul (readNumber m a) (ratDiv (readNumber m b) denom))

/-- The cells of the rectangle `r1..r2 × c1..c2` in the evaluator's scan
order (`range(start_row, end_row+1)` outer, columns inner). -/
def rangeCells (r1 c1 r2 c2 : Nat) : List (Nat × Nat) :=
  (List.range' r1 (r2 + 1 - r1)).flatMap fun r =>
    (List.range' c1 (c2 + 1 - c1)).map fun c => (r, c)

/-- The body of `_display_value(v, r, c)` with its recursive calls
abstracted (`evalSumF`, `evalSubtotalF` for the two aggregate branches and
`dvF` for the recursive bare-reference evaluation): evaluate a formula
string for display, falling back to the original value on any unsupported
shape or exception. -/
def displayValueWith (m : Model) (evalSumF evalSubtotalF : String → Option ℚ)
    (dvF : Value → Nat → Nat → Value) (v : Value) (_r _c : Nat) : Value :=
    match v with
    | Value.vstr str =>
      let s := pyStrip str
      if !strStartsWith s "=" then v
      else if strContainsSub (strToUpper s) "SUM(" then
        match evalSumF s with
        | some q => Value.vfloat q
        | none => v
      else if strContainsSub (strToUpper s) "SUBTOTAL(9," then
        match evalSubtotalF s with
        | some q => Value.vfloat q
        | none => v
      else
        match bareRefParse s with
        | some addr =>
          match addrToRowCol addr with
          | none => v
          | some (refRow, refCol) =>
            -- the bare-reference branch reads the cell *without* canonicalising
            match effectiveValue m (refRow, refCol) with
            | Value.vstr t =>
              if strStartsWith (pyStrip t) "=" then dvF (Value.vstr t) refRow refCol
              else
                match pyParseFloat (strReplace t "," "") with
                | some q => Value.vfloat q
                | none => Value.vstr t
            | rv => rv
        | none =>
          match evalSimpleMulDiv m s with
          | some q => Value.vfloat q
          | none => v
    | _ => v

/-- The body of `_eval_sum(formula, row, col)` with the per-cell read
(`readNum`) abstracted: sum the numeric content of the matched rectangle,
visiting each merge anchor at most once (`processed_cells`). -/
def evalSumWith (m : Model) (readNum : Nat → Nat → ℚ) (s : String) : Option ℚ :=
    match sumSearch s with
    | none => none
    | some (a1, a2) =>
      match addrToRowCol a1, addrToRowCol a2 with
      | some (r1, c1), some (r2, c2) =>
        some ((rangeCells r1 c1 r2 c2).foldl
          (fun (acc : List (Nat × Nat) × ℚ) rc =>
            if 1 ≤ rc.1 && rc.1 ≤ m.maxRow && 1 ≤ rc.2 && rc.2 ≤ m.maxCol then
              let cp := canonicalCell m.ws rc.1 rc.2
              if acc.1.contains cp then acc
              else (acc.1 ++ [cp], ratAdd acc.2 (readNum cp.1 cp.2))
            else acc)
          ([], 0)).2
      | _, _ => none

/-- The body of `_eval_subtotal(formula, row, col)`: as `_eval_sum` but a
row filtered out by the oracle is skipped (and not marked processed). -/
def evalSubtotalWith (m : Model) (readNum : Nat → Nat → ℚ) (s : String) : Option ℚ :=
    match subtotalSearch s with
    | none => none
    | some (a1, a2) =>
      match addrToRowCol a1, addrToRowCol a2 with
      | some (r1, c1), some (r2, c2) =>
        some ((rangeCells r1 c1 r2 c2).foldl
          (fun (acc : List (Nat × Nat) × ℚ) rc =>
            if 1 ≤ rc.1 && rc.1 ≤ m.maxRow && 1 ≤ rc.2 && rc.2 ≤ m.maxCol then
              let cp := canonicalCell m.ws rc.1 rc.2
              if acc.1.contains cp then acc
              else if isRowVisible m rc.1 then
                (acc.1 ++ [cp], ratAdd acc.2 (readNum cp.1 cp.2))
              else acc
            else acc)
          ([], 0)).2
      | _, _ => none

/-- The body of `_read_number_from_cell(row, col)` with the recursive
display evaluation (`dvF`) abstracted: canonicalise, read
overlay-then-sheet; formula strings are display-evaluated first, any other
string is parsed with comma stripping, everything non-numeric reads `0.0`. -/
def readNumberFromCellWith (m : Model) (dvF : Value → Nat → Nat → Value)
    (row col : Nat) : ℚ :=
    let p := canonicalCell m.ws row col
    match effectiveValue m p with
    | Value.vnone => 0
    | Value.vstr s =>
      let viaFormula : Option ℚ :=
        if strStartsWith (pyStrip s) "=" then
          (dvF (Value.vstr s) p.1 p.2).toNum?
        else none
      match viaFormula with
      | some q => q
      | none => (pyParseFloat (strReplace (pyStrip s) "," "")).getD 0
    | v => (Value.toNum? v).getD 0

/-- The four mutually recursive evaluator operations
(`_display_value`, `_eval_sum`, `_eval_subtotal`, `_read_number_from_cell`)
tied together, structurally on the fuel: every call between them consumes
one unit (one Python stack frame); at fuel 0 each returns its exception
fallback (`RecursionError` caught by the caller's `except`). -/
def evalOps (m : Model) :
    Nat → (Value → Nat → Nat → Value) × (String → Option ℚ) ×
      (String → Option ℚ) × (Nat → Nat → ℚ)
  | 0 => (fun v _ _ => v, fun _ => none, fun _ => none, fun _ _ => 0)
  | fuel + 1 =>
    let prev := evalOps m fuel
    (displayValueWith m prev.2.1 prev.2.2.1 prev.1,
     evalSumWith m prev.2.2.2,
     evalSubtotalWith m prev.2.2.2,
     readNumberFromCellWith m prev.1)

/-- `_display_value(v, r, c)` at a given recursion budget. -/
def displayValue (m : Model) (fuel : Nat) (v : Value) (r c : Nat) : Value :=
  (evalOps m fuel).1 v r c

/-- `_eval_sum(formula, …)` at a given recursion budget. -/
def evalSum (m : Model) (fuel : Nat) (s : String) : Option ℚ :=
  (evalOps m fuel).2.1 s

/-- `_eval_subtotal(formula, …)` at a given recursion budget. -/
def evalSubtotal (m : Model) (fuel : Nat) (s : String) : Option ℚ :=
  (evalOps m fuel).2.2.1 s

/-- `_read_number_from_cell(row, col)` at a given recursion budget. -/
def readNumberFromCell (m : Model) (fuel : Nat) (row col : Nat) : ℚ :=
  (evalOps m fuel).2.2.2 row col

/-! ## `excel_processor.py`: merged-anchor-safe writes and `add_sum_rows` -/

/-- Is `ws.cell(row=r, column=c)` an openpyxl `MergedCell` (inside a merge
range but not its top-left)? -/
def isMergedCellObj (ws : Worksheet) (r c : Nat) : Bool :=
  ws.merges.any fun mr => mr.containsCell r c && decide ((r, c) ≠ (mr.minRow, mr.minCol))

/-- `_resolve_merged_anchor(ws, row, col)`: for a `MergedCell`, the first
merge range containing the cell yields the anchor; otherwise the cell itself. -/
def resolveMergedAnchor (ws : Worksheet) (r c : Nat) : Nat × Nat :=
  if isMergedCellObj ws r c then
    match ws.merges.find? (fun mr => mr.containsCell r c) with
    | some mr => (mr.minRow, mr.minCol)
    | none => (r, c)
  else (r, c)

/-- `set_cell_value_safe(ws, row, col, value)`. -/
def setCellValueSafe (ws : Worksheet) (r c : Nat) (v : Value) : Worksheet :=
  let p := resolveMergedAnchor ws r c
  ws.setCell p.1 p.2 v

/-- The `while n:` loop of `excel_col_name`, with explicit fuel (one unit
per produced letter; `n` itself is always enough) keeping the recursion
structural. -/
def excelColNameAux : Nat → Nat → String
  | _, 0 => ""
  | 0, _ + 1 => ""
  | fuel + 1, n + 1 =>
    excelColNameAux fuel (n / 26) ++ String.mk [Char.ofNat (65 + n % 26)]

/-- `excel_col_name(n)` / openpyxl's column letter (`cell.coordinate`'s
column part): 1 → "A", 27 → "AA". -/
def excelColName (n : Nat) : String :=
  excelColNameAux n n

/-- `ws.cell(row=r, column=c).coordinate`, e.g. `"B4"`. -/
def coordinate (r c : Nat) : String :=
  excelColName c ++ Nat.repr r

/-- `add_sum_rows(ws, data_rows, occ_col, chb_col, label_col_offset=1)`:
below the data, a label + unfiltered `=SUM(first:last)` total for the
occurrence-amount column at row `last_row + 3`, and the same for the
chargeback column one row further down. -/
def addSumRows (ws : Worksheet) (dataRows : List Nat) (occCol chbCol : Nat)
    (labelColOffset : Nat := 1) : Worksheet :=
  match dataRows with
  | [] => ws
  | firstRow :: rest =>
    let lastRow := (firstRow :: rest).getLast (by simp)
    let sumStartRow := lastRow + 3
    let ws := setCellValueSafe ws sumStartRow (occCol - labelColOffset) (Value.vstr "발생금액")
    let ws := setCellValueSafe ws sumStartRow occCol
      (Value.vstr ("=SUM(" ++ coordinate firstRow occCol ++ ":" ++ coordinate lastRow occCol ++ ")"))
    let ws := setCellValueSafe ws (sumStartRow + 1) (chbCol - labelColOffset) (Value.vstr "구상금액")
    setCellValueSafe ws (sumStartRow + 1) chbCol
      (Value.vstr ("=SUM(" ++ coordinate firstRow chbCol ++ ":" ++ coordinate lastRow chbCol ++ ")"))

/-! ## `utils.guess_last_data_row` -/

/-- The scanning loop of `guess_last_data_row`: `some last` when a blank run
of length `emptyRun` triggered the break, `none` when the loop ran out
(so `last` keeps its initial value `ws.max_row`). -/
def guessLoop (ws : Worksheet) (anchorCol emptyRun : Nat) :
    List Nat → Nat → Option Nat
  | [], _ => none
  | r :: rs, streak =>
    if isBlankNoneOrEmpty (ws.cellValue r anchorCol) then
      let streak' := streak + 1
      if emptyRun ≤ streak' then some (r - emptyRun) else guessLoop ws anchorCol emptyRun rs streak'
    else guessLoop ws anchorCol emptyRun rs 0

/-- `guess_last_data_row(ws, data_start_row, anchor_col, empty_run=30)`:
scan the anchor column from `data_start_row` to `ws.max_row`; a run of
`empty_run` consecutive blanks ends the region at `current_row - empty_run`;
otherwise the physical `ws.max_row` stands; clamped below by
`data_start_row`. -/
def guessLastDataRow (ws : Worksheet) (dataStartRow anchorCol : Nat)
    (emptyRun : Nat := 30) : Nat :=
  let rows := List.range' dataStartRow (ws.maxRow + 1 - dataStartRow)
  max ((guessLoop ws anchorCol emptyRun rows 0).getD ws.maxRow) dataStartRow

/-! ## `MainPage.on_preprocess_clicked`: the "already preprocessed" guard -/

/-- A loaded workbook (list of worksheets). -/
def Workbook := List Worksheet
deriving instance DecidableEq for Workbook

/-- The slice of `MainPage` state the preprocessing guard reads and writes:
the selected sheet combo text, the two loaded workbooks, and the in-memory
per-file-type "already preprocessed" flags. -/
structure MainPageState where
  currentSheet : String
  wbDomestic : Option Workbook
  wbOverseas : Option Workbook
  preprocessedDomestic : Bool
  preprocessedOverseas : Bool
deriving DecidableEq

/-- What one click of the preprocess button does before returning:
show an informational message box and stop, or hand the chosen workbook to
the background `preprocess_inplace` worker.  `raised` exists to express
exception propagation out of the handler; no path of the source produces it. -/
inductive ClickOutcome where
  | info (msg : String)
  | launchPreprocess (fileType : String) (wb : Workbook)
  | raised (err : String)
deriving DecidableEq

/-- Does the outcome propagate an exception? -/
def ClickOutcome.isRaised : ClickOutcome → Bool
  | raised _ => true
  | _ => false

/-- `MainPage.on_preprocess_clicked` up to the worker launch: sheet-selected
checks, workbook-present checks, then the `preprocessed_domestic` /
`preprocessed_overseas` guard — an informational message and an early
return, *before* any workbook access. -/
def onPreprocessClicked (st : MainPageState) : ClickOutcome × MainPageState :=
  if st.currentSheet = "" then (ClickOutcome.info "먼저 파일을 업로드하세요.", st)
  else if strStartsWith st.currentSheet "국내: " then
    match st.wbDomestic with
    | none => (ClickOutcome.info "국내 청구서가 없습니다.", st)
    | some wb =>
      if st.preprocessedDomestic then
        (ClickOutcome.info "국내 청구서는 이미 전처리되었습니다.", st)
      else (ClickOutcome.launchPreprocess "domestic" wb, st)
  else if strStartsWith st.currentSheet "해외: " then
    match st.wbOverseas with
    | none => (ClickOutcome.info "해외 청구서가 없습니다.", st)
    | some wb =>
      if st.preprocessedOverseas then
        (ClickOutcome.info "해외 청구서는 이미 전처리되었습니다.", st)
      else (ClickOutcome.launchPreprocess "overseas" wb, st)
  else (ClickOutcome.info "시트를 선택하세요.", st)

/-! ## Edit sequences, undo/redo iteration (for the round-trip property) -/

/-- One requested cell edit: target coordinates and the raw editor text. -/
structure EditInput where
  r : Nat
  c : Nat
  text : String
deriving DecidableEq, Repr

/-- Apply one `setData` call, keeping the resulting model. -/
def applyEdit (m : Model) (e : EditInput) : Model :=
  (setData m e.r e.c e.text).1

/-- Apply a sequence of `setData` calls. -/
def applyEdits (m : Model) (es : List EditInput) : Model :=
  es.foldl applyEdit m

/-- The edit succeeds (`setData` returns true) and actually changes the
effective value of its canonical target (so a history record is pushed). -/
def editOk (m : Model) (e : EditInput) : Bool :=
  (setData m e.r e.c e.text).2 &&
    !pyEq (effectiveOld m (canonicalCell m.ws e.r e.c)) (parseUserInput e.text)

/-- Every edit of the sequence, run in order, succeeds and changes a value. -/
def editsAllChange : Model → List EditInput → Bool
  | _, [] => true
  | m, e :: es => editOk m e && editsAllChange (applyEdit m e) es

/-- `n` consecutive `undo()` calls. -/
def undoN : Nat → Model → Model
  | 0, m => m
  | n + 1, m => undoN n (undo m).1

/-- `n` consecutive `redo()` calls. -/
def redoN : Nat → Model → Model
  | 0, m => m
  | n + 1, m => redoN n (redo m).1

/-- `undo`'s effect on the overlay for one record: restore the old value,
deleting the entry when the old value was `None`. -/
def recApplyOld (d : List ((Nat × Nat) × Value)) (rec : EditRecord) :
    List ((Nat × Nat) × Value) :=
  if rec.oldValue = Value.vnone then alErase d (rec.row, rec.col)
  else alInsert d (rec.row, rec.col) rec.oldValue

/-- `redo`'s effect on the overlay for one record: store the new value. -/
def recApplyNew (d : List ((Nat × Nat) × Value)) (rec : EditRecord) :
    List ((Nat × Nat) × Value) :=
  alInsert d (rec.row, rec.col) rec.newValue

/-- `setData`'s effect on the overlay for one edit: store the parsed value
at the canonical key. -/
def insertEdit (ws : Worksheet) (d : List ((Nat × Nat) × Value)) (e : EditInput) :
    List ((Nat × Nat) × Value) :=
  alInsert d (canonicalCell ws e.r e.c) (parseUserInput e.text)

/-- Key/new-value projection of a history record. -/
def recKeyNew (rec : EditRecord) : (Nat × Nat) × Value :=
  ((rec.row, rec.col), rec.newValue)

/-- Key/new-value projection of an edit request. -/
def editKeyNew (ws : Worksheet) (e : EditInput) : (Nat × Nat) × Value :=
  (canonicalCell ws e.r e.c, parseUserInput e.text)

/-! ## Concrete fixtures used by the witnesses and counterexamples -/

/-- A one-cell worksheet, enough for the guard scenario. -/
def wsTiny : Worksheet :=
  { maxRow := 1, maxCol := 1, cells := [((1, 1), Value.vstr "h")], merges := [] }

/-- `MainPage` state right after a completed first preprocessing run of the
domestic workbook, with its sheet still selected. -/
def stSecondClick : MainPageState :=
  { currentSheet := "국내: Sheet1"
    wbDomestic := some [wsTiny]
    wbOverseas := none
    preprocessedDomestic := true
    preprocessedOverseas := false }

/-- Reference-layout worksheet: the header texts live on row 3 (the grid
model nevertheless only protects row 1). -/
def wsHeader3 : Worksheet :=
  { maxRow := 6, maxCol := 3
    cells := [((3, 1), Value.vstr "Vehicle"), ((3, 2), Value.vstr "구상율"),
              ((3, 3), Value.vstr "구상금액"), ((4, 2), Value.vint 50)]
    merges := [] }

/-- Model over the reference-layout sheet with "edit all" enabled
(`set_edit_all(True)`). -/
def mHeader3 : Model :=
  { mkModel wsHeader3 with editAll := true }

/-- A sheet whose cell (2,1) already holds the integer 5. -/
def wsPlain5 : Worksheet :=
  { maxRow := 3, maxCol := 2, cells := [((2, 1), Value.vint 5)], merges := [] }

/-- Editable-everywhere model over `wsPlain5`. -/
def mPlain5 : Model :=
  { mkModel wsPlain5 with editAll := true }

/-- The claims' aggregation scenario: column A rows 1..4, a 2×1 merged
block A1:A2 holding `v` at its anchor, and unmerged cells A3 = `a`,
A4 = `b`. -/
def wsRangeABV (a b v : ℚ) : Worksheet :=
  { maxRow := 4, maxCol := 2
    cells := [((1, 1), Value.vfloat v), ((3, 1), Value.vfloat a), ((4, 1), Value.vfloat b)]
    merges := [⟨1, 1, 2, 1⟩] }

/-- Fresh model over the aggregation scenario (no filter attached). -/
def mRangeABV (a b v : ℚ) : Model :=
  mkModel (wsRangeABV a b v)

/-- Filter oracle hiding source rows 0 and 1 (1-based sheet rows 1 and 2 —
exactly the merged block's rows) and accepting everything else. -/
def filterHidesMergedRows : Nat → Bool := fun sourceRow => decide (2 ≤ sourceRow)

/-- Worksheet whose anchor column 2 is non-blank through row 40 and blank
for rows 41–70 (`maxRow` 70). -/
def wsAnchor40 : Worksheet :=
  { maxRow := 70, maxCol := 2
    cells := (List.range' 4 37).map (fun r => ((r, 2), Value.vstr "x"))
    merges := [] }

/-- Worksheet with scattered blanks but no run of 3 consecutive blanks in
column 1 between rows 2 and 6. -/
def wsNoRun : Worksheet :=
  { maxRow := 6, maxCol := 1
    cells := [((4, 1), Value.vstr "x")]
    merges := [] }

/-- Data sheet for the totals layout: data rows 4..6 in occurrence column 3,
chargeback column 5, no merges. -/
def wsDataC7 : Worksheet :=
  { maxRow := 6, maxCol := 5
    cells := [((4, 3), Value.vint 10), ((5, 3), Value.vint 20), ((6, 3), Value.vint 30)]
    merges := [] }

/-! # Theorems

General lemmas about the association-list dictionary and about `setData`,
shared by several claims, followed by one theorem (plus witness or
counterexample) per claim. -/

theorem ratAdd_eq (a b : ℚ) : ratAdd a b = a + b := by
  have ha : (a.den : Int) ≠ 0 := by exact_mod_cast a.den_nz
  have hb : (b.den : Int) ≠ 0 := by exact_mod_cast b.den_nz
  rw [ratAdd]
  conv_rhs => rw [← Rat.num_divInt_den a, ← Rat.num_divInt_den b]
  rw [Rat.divInt_add_divInt _ _ ha hb]

theorem ratMul_eq (a b : ℚ) : ratMul a b = a * b := by
  rw [ratMul]
  conv_rhs => rw [← Rat.num_divInt_den a, ← Rat.num_divInt_den b]
  rw [Rat.divInt_mul_divInt']

theorem ratInv_eq (a : ℚ) : ratInv a = a⁻¹ := by
  rw [ratInv, ← Rat.inv_def']

theorem ratDiv_eq (a b : ℚ) : ratDiv a b = a / b := by
  rw [ratDiv, ratMul_eq, ratInv_eq, div_eq_mul_inv]

theorem ratPow_eq (a : ℚ) (n : Nat) : ratPow a n = a ^ n := by
  induction n with
  | zero => simp [ratPow]
  | succ k ih => rw [ratPow, ratMul_eq, ih, pow_succ]

theorem ratZPow_eq (a : ℚ) (z : Int) : ratZPow a z = a ^ z := by
  rw [ratZPow]
  by_cases h : 0 ≤ z
  · rw [if_pos h, ratPow_eq, ← zpow_natCast, Int.toNat_of_nonneg h]
  · rw [if_neg h, ratPow_eq, ratInv_eq, ← zpow_natCast, ← zpow_neg]
    congr 1
    omega

theorem alGet_nil {κ α : Type} [DecidableEq κ] (k : κ) :
    alGet ([] : List (κ × α)) k = none := rfl

theorem alGet_cons {κ α : Type} [DecidableEq κ] (p : κ × α) (d : List (κ × α)) (k : κ) :
    alGet (p :: d) k = if p.1 = k then some p.2 else alGet d k := by
  by_cases h : p.1 = k
  · simp [alGet, List.find?, h]
  · simp [alGet, List.find?, h]

theorem alGet_alInsert_self {κ α : Type} [DecidableEq κ]
    (d : List (κ × α)) (k : κ) (v : α) :
    alGet (alInsert d k v) k = some v := by
  induction d with
  | nil => simp [alInsert, alGet_cons]
  | cons p rest ih =>
    by_cases h : p.1 = k
    · simp [alInsert, h, alGet_cons]
    · simp [alInsert, h, alGet_cons, ih]

theorem alGet_alInsert_other {κ α : Type} [DecidableEq κ]
    (d : List (κ × α)) (k k' : κ) (v : α) (h : k' ≠ k) :
    alGet (alInsert d k v) k' = alGet d k' := by
  have h' : ¬ k = k' := fun hh => h hh.symm
  induction d with
  | nil => simp [alInsert, alGet_cons, alGet_nil, h']
  | cons p rest ih =>
    by_cases hp : p.1 = k
    · subst hp
      simp [alInsert, alGet_cons, h']
    · simp [alInsert, hp, alGet_cons, ih]

theorem alGet_alErase_other {κ α : Type} [DecidableEq κ]
    (d : List (κ × α)) (k k' : κ) (h : k' ≠ k) :
    alGet (alErase d k) k' = alGet d k' := by
  have h' : ¬ k = k' := fun hh => h hh.symm
  induction d with
  | nil => rfl
  | cons p rest ih =>
    by_cases hp : p.1 = k
    · subst hp
      simp [alErase, alGet_cons, h']
    · simp [alErase, hp, alGet_cons, ih]

theorem cellValue_setCell (ws : Worksheet) (r c : Nat) (v : Value) (rq cq : Nat) :
    (ws.setCell r c v).cellValue rq cq =
      if (r, c) = (rq, cq) then v else ws.cellValue rq cq := by
  by_cases h : ((r, c) : Nat × Nat) = (rq, cq)
  · rw [if_pos h]
    obtain ⟨h1, h2⟩ := Prod.mk.injEq .. ▸ h
    subst h1; subst h2
    simp [Worksheet.setCell, Worksheet.cellValue, alGet_alInsert_self]
  · rw [if_neg h]
    simp only [Worksheet.setCell, Worksheet.cellValue]
    rw [alGet_alInsert_other _ _ _ _ (fun hh => h hh.symm)]

theorem setData_fail_header (m : Model) (r c : Nat) (s : String) (h : r = 1) :
    setData m r c s = (m, false) := by
  simp only [setData]
  rw [if_pos h]

theorem setData_fail_merged (m : Model) (r c : Nat) (s : String)
    (h : isMergedNonTopLeft m.ws r c = true) :
    setData m r c s = (m, false) := by
  by_cases hr : r = 1
  · simp only [setData]
    rw [if_pos hr]
  · simp only [setData]
    rw [if_neg hr, if_pos h]

theorem setData_fail_notEditable (m : Model) (r c : Nat) (s : String)
    (h : (!m.editAll && !(m.editableCols.contains (canonicalCell m.ws r c).2)) = true) :
    setData m r c s = (m, false) := by
  by_cases hr : r = 1
  · simp only [setData]
    rw [if_pos hr]
  · by_cases hm : isMergedNonTopLeft m.ws r c = true
    · simp only [setData]
      rw [if_neg hr, if_pos hm]
    · simp only [setData]
      rw [if_neg hr, if_neg hm, if_pos h]

theorem setData_push_eq (m : Model) (r c : Nat) (s : String)
    (h1 : ¬ r = 1)
    (h2 : ¬ isMergedNonTopLeft m.ws r c = true)
    (h3 : ¬ (!m.editAll && !(m.editableCols.contains (canonicalCell m.ws r c).2)) = true)
    (h4 : (!m.isUndoing &&
        !pyEq (effectiveOld m (canonicalCell m.ws r c)) (parseUserInput s)) = true) :
    setData m r c s =
      ({ m with
          dirty := alInsert m.dirty (canonicalCell m.ws r c) (parseUserInput s)
          undoStack := dequePush m.undoStack
            ⟨(canonicalCell m.ws r c).1, (canonicalCell m.ws r c).2,
             effectiveOld m (canonicalCell m.ws r c), parseUserInput s⟩
          redoStack := [] }, true) := by
  simp only [setData]
  rw [if_neg h1, if_neg h2, if_neg h3, if_pos h4]

theorem setData_nopush_eq (m : Model) (r c : Nat) (s : String)
    (h1 : ¬ r = 1)
    (h2 : ¬ isMergedNonTopLeft m.ws r c = true)
    (h3 : ¬ (!m.editAll && !(m.editableCols.contains (canonicalCell m.ws r c).2)) = true)
    (h4 : ¬ (!m.isUndoing &&
        !pyEq (effectiveOld m (canonicalCell m.ws r c)) (parseUserInput s)) = true) :
    setData m r c s =
      ({ m with
          dirty := alInsert m.dirty (canonicalCell m.ws r c) (parseUserInput s) }, true) := by
  simp only [setData]
  rw [if_neg h1, if_neg h2, if_neg h3, if_neg h4]

theorem setData_success_guards (m : Model) (r c : Nat) (s : String)
    (hsucc : (setData m r c s).2 = true) :
    ¬ r = 1 ∧ ¬ isMergedNonTopLeft m.ws r c = true ∧
      ¬ (!m.editAll && !(m.editableCols.contains (canonicalCell m.ws r c).2)) = true := by
  refine ⟨fun h => ?_, fun h => ?_, fun h => ?_⟩
  · rw [setData_fail_header m r c s h] at hsucc
    simp at hsucc
  · rw [setData_fail_merged m r c s h] at hsucc
    simp at hsucc
  · rw [setData_fail_notEditable m r c s h] at hsucc
    simp at hsucc

/-! ## C1 — the "already preprocessed" guard -/

/-- C1 counterexample: with the domestic workbook already preprocessed
(state reached after one successful run), a second click of the
preprocessing entry point does not raise any exception at all, let alone
`AlreadyPreprocessed`: it shows the informational message
"국내 청구서는 이미 전처리되었습니다." and returns with the state (and hence
every workbook cell, merge range and fill) unchanged.  No marker is
consulted in the workbook itself: the flag is GUI session state. -/
theorem C1_counterexample :
    (onPreprocessClicked stSecondClick).1
        = ClickOutcome.info "국내 청구서는 이미 전처리되었습니다." ∧
    ClickOutcome.isRaised (onPreprocessClicked stSecondClick).1 = false ∧
    (onPreprocessClicked stSecondClick).2 = stSecondClick := by
  decide

/-- C1 (amended): a second preprocessing request for an already-preprocessed
file type is blocked *before any mutation* by the in-memory
`preprocessed_domestic` flag of the GUI page: the handler shows an
informational message and returns with the page state — including the
loaded workbooks — unchanged.  No `AlreadyPreprocessed` exception is raised
and no marker is stored in or read from the workbook; the workbook-level
entry point `preprocess_inplace` itself performs no guard check. -/
theorem C1_secondClickBlocked (st : MainPageState) (wb : Workbook)
    (h1 : strStartsWith st.currentSheet "국내: " = true)
    (h2 : st.wbDomestic = some wb)
    (h3 : st.preprocessedDomestic = true) :
    onPreprocessClicked st = (ClickOutcome.info "국내 청구서는 이미 전처리되었습니다.", st) := by
  have hne : ¬ st.currentSheet = "" := by
    intro h
    rw [h] at h1
    exact absurd h1 (by decide)
  unfold onPreprocessClicked
  rw [if_neg hne, if_pos h1, h2]
  simp [h3]

/-- Witness for `C1_secondClickBlocked` at the concrete second-click state. -/
theorem C1_secondClickBlocked_witness :
    onPreprocessClicked stSecondClick
      = (ClickOutcome.info "국내 청구서는 이미 전처리되었습니다.", stSecondClick) :=
  C1_secondClickBlocked stSecondClick [wsTiny] (by decide) (by decide) (by decide)

/-! ## C2 — which edits are rejected -/

/-- C2 counterexample: on the reference layout the header texts live on
row 3, yet `setData` happily edits row 3 (here the "구상율" header cell
itself, with "edit all" enabled): it returns `true` and the overlay grows
from empty to one entry.  The row the model actually protects is row 1. -/
theorem C2_counterexample :
    (setData mHeader3 3 2 "5").2 = true ∧
    (setData mHeader3 3 2 "5").1.dirty = [((3, 2), Value.vint 5)] := by
  decide

/-- C2 (amended): the header row the grid model protects is row 1 (the
sheet's first row — `models.py` builds its editable-column set from row 1
and rejects edits there), not row 3 of the reference layout.  An edit
targeting row 1 or a non-anchor cell of a merged range returns `false` and
leaves the model — in particular the dirty overlay, its key set and every
value — unchanged. -/
theorem C2_rejectedEditLeavesOverlay (m : Model) (r c : Nat) (s : String)
    (h : r = 1 ∨ isMergedNonTopLeft m.ws r c = true) :
    setData m r c s = (m, false) := by
  rcases h with h | h
  · exact setData_fail_header m r c s h
  · exact setData_fail_merged m r c s h

/-- Witness for `C2_rejectedEditLeavesOverlay`: a header-row-1 edit and the
same for a merged non-anchor cell of the aggregation fixture. -/
theorem C2_rejectedEditLeavesOverlay_witness :
    setData mHeader3 1 2 "5" = (mHeader3, false) ∧
    setData (mRangeABV 7 5 100) 2 1 "5" = (mRangeABV 7 5 100, false) :=
  ⟨C2_rejectedEditLeavesOverlay mHeader3 1 2 "5" (Or.inl rfl),
   C2_rejectedEditLeavesOverlay (mRangeABV 7 5 100) 2 1 "5" (Or.inr (by decide))⟩

/-! ## C3 — what a successful edit does -/

/-- C3 counterexample: editing cell (2,1) — which already holds the integer
5 — to the text "5" parses to the same effective value, so the claim says
the overlay must stay unchanged.  The call succeeds, pushes nothing and
clears nothing, but it *does* write the entry into the previously empty
overlay: the overlay gains a key (count 0 → 1) with the identical value. -/
theorem C3_counterexample :
    (setData mPlain5 2 1 "5").2 = true ∧
    (setData mPlain5 2 1 "5").1.undoStack = [] ∧
    (setData mPlain5 2 1 "5").1.redoStack = [] ∧
    mPlain5.dirty = [] ∧
    (setData mPlain5 2 1 "5").1.dirty = [((2, 1), Value.vint 5)] := by
  decide

/-- C3 (amended): a successful `setData` always canonicalises the write to
the merge anchor and always stores the parsed value in the dirty overlay at
that anchor key — even when the value is unchanged.  Only the history is
conditional: when the parsed value equals the current effective value
(Python `==`, so `5 == 5.0`), the undo and redo stacks are left untouched;
the overlay nevertheless receives the entry. -/
theorem C3_successWritesAnchor (m : Model) (r c : Nat) (s : String)
    (hsucc : (setData m r c s).2 = true) :
    (setData m r c s).1.dirty
        = alInsert m.dirty (canonicalCell m.ws r c) (parseUserInput s) ∧
    (pyEq (effectiveOld m (canonicalCell m.ws r c)) (parseUserInput s) = true →
      (setData m r c s).1.undoStack = m.undoStack ∧
      (setData m r c s).1.redoStack = m.redoStack) := by
  obtain ⟨h1, h2, h3⟩ := setData_success_guards m r c s hsucc
  by_cases h4 : (!m.isUndoing &&
      !pyEq (effectiveOld m (canonicalCell m.ws r c)) (parseUserInput s)) = true
  · rw [setData_push_eq m r c s h1 h2 h3 h4]
    refine ⟨rfl, fun hEq => ?_⟩
    rw [hEq] at h4
    simp at h4
  · rw [setData_nopush_eq m r c s h1 h2 h3 h4]
    exact ⟨rfl, fun _ => ⟨rfl, rfl⟩⟩

/-- Witness for `C3_successWritesAnchor` at the no-change edit (2,1) ← "5". -/
theorem C3_successWritesAnchor_witness :
    (setData mPlain5 2 1 "5").1.dirty
        = alInsert mPlain5.dirty (canonicalCell mPlain5.ws 2 1) (parseUserInput "5") ∧
    (pyEq (effectiveOld mPlain5 (canonicalCell mPlain5.ws 2 1)) (parseUserInput "5") = true →
      (setData mPlain5 2 1 "5").1.undoStack = mPlain5.undoStack ∧
      (setData mPlain5 2 1 "5").1.redoStack = mPlain5.redoStack) :=
  C3_successWritesAnchor mPlain5 2 1 "5" (by decide)

/-! ## C5, C6 — merge-aware SUM and filter-aware SUBTOTAL -/

/-- C5: over the range A1:A4 containing the 2×1 merged block A1:A2 with
value `v` at its anchor and unmerged cells A3 = `a`, A4 = `b`, the
display-time SUM visits each merge anchor at most once, so
`SUM(A1:A4) = a + b + v`, the merged value counted exactly once — both at
the `_eval_sum` level and through `_display_value` (for any values and any
sufficient recursion budget). -/
theorem C5_sumCountsMergeOnce (a b v : ℚ) (fuel : Nat) :
    evalSum (mRangeABV a b v) (fuel + 2) "=SUM(A1:A4)" = some (a + b + v) ∧
    displayValue (mRangeABV a b v) (fuel + 3) (Value.vstr "=SUM(A1:A4)") 5 1
      = Value.vfloat (a + b + v) := by
  have hval : ratAdd (ratAdd (ratAdd 0 v) a) b = a + b + v := by
    rw [ratAdd_eq, ratAdd_eq, ratAdd_eq]
    ring
  constructor
  · show some (ratAdd (ratAdd (ratAdd 0 v) a) b) = _
    rw [hval]
  · show Value.vfloat (ratAdd (ratAdd (ratAdd 0 v) a) b) = _
    rw [hval]

/-- C6: with the filter oracle hiding exactly the merged block's rows
(sheet rows 1 and 2), display-time `SUBTOTAL(9, A1:A4)` excludes the merged
value and still dedups anchors, giving `a + b`; `SUM(A1:A4)` ignores the
oracle entirely — for *every* filter state `p` (including none) it returns
`a + b + v`. -/
theorem C6_subtotalRespectsFilter (a b v : ℚ) (fuel : Nat) (p : Option (Nat → Bool)) :
    evalSubtotal { mRangeABV a b v with proxyModel := some filterHidesMergedRows }
        (fuel + 2) "=SUBTOTAL(9,A1:A4)" = some (a + b) ∧
    evalSum { mRangeABV a b v with proxyModel := p } (fuel + 2) "=SUM(A1:A4)"
      = some (a + b + v) := by
  constructor
  · show some (ratAdd (ratAdd 0 a) b) = _
    rw [ratAdd_eq, ratAdd_eq]
    norm_num
  · show some (ratAdd (ratAdd (ratAdd 0 v) a) b) = _
    rw [ratAdd_eq, ratAdd_eq, ratAdd_eq]
    exact congrArg some (by ring)

/-! ## C7 — placement of the SUM total rows -/

theorem setCellValueSafe_noMerges (w : Worksheet) (r c : Nat) (v : Value)
    (h : w.merges = []) : setCellValueSafe w r c v = w.setCell r c v := by
  simp [setCellValueSafe, resolveMergedAnchor, isMergedCellObj, h]

theorem merges_setCell (w : Worksheet) (r c : Nat) (v : Value) :
    (w.setCell r c v).merges = w.merges := rfl

/-- C7 counterexample: with data rows 4..6 (last data row 6), the claim
places the occurrence total two rows below, at row 8 — but `add_sum_rows`
leaves row 8 untouched (its cell still reads `None`) and writes the totals
at rows 9 and 10 (`last_row + 3` and `last_row + 4`). -/
theorem C7_counterexample :
    (addSumRows wsDataC7 [4, 5, 6] 3 5).cellValue 8 3 = Value.vnone ∧
    (addSumRows wsDataC7 [4, 5, 6] 3 5).cellValue 8 2 = Value.vnone ∧
    (addSumRows wsDataC7 [4, 5, 6] 3 5).cellValue 9 3 = Value.vstr "=SUM(C4:C6)" ∧
    (addSumRows wsDataC7 [4, 5, 6] 3 5).cellValue 9 2 = Value.vstr "발생금액" := by
  decide

/-- C7 (amended): `add_sum_rows` writes the unfiltered `=SUM(first:last)`
total for the occurrence-amount column *three* rows below the last data row
(at `last_row + 3`, leaving a two-row gap) and the chargeback total on the
row after that (`last_row + 4`); each total is preceded by its label cell
one column to the left, and the range addresses come from the address codec
(`cell.coordinate`). -/
theorem C7_sumRowsLayout (ws : Worksheet) (f : Nat) (rest : List Nat)
    (occCol chbCol : Nat) (hm : ws.merges = [])
    (hocc : 1 ≤ occCol) (hchb : 1 ≤ chbCol) :
    ((addSumRows ws (f :: rest) occCol chbCol).cellValue
        ((f :: rest).getLast (List.cons_ne_nil f rest) + 3) occCol
      = Value.vstr ("=SUM(" ++ coordinate f occCol ++ ":"
          ++ coordinate ((f :: rest).getLast (List.cons_ne_nil f rest)) occCol ++ ")")) ∧
    ((addSumRows ws (f :: rest) occCol chbCol).cellValue
        ((f :: rest).getLast (List.cons_ne_nil f rest) + 3) (occCol - 1)
      = Value.vstr "발생금액") ∧
    ((addSumRows ws (f :: rest) occCol chbCol).cellValue
        ((f :: rest).getLast (List.cons_ne_nil f rest) + 4) chbCol
      = Value.vstr ("=SUM(" ++ coordinate f chbCol ++ ":"
          ++ coordinate ((f :: rest).getLast (List.cons_ne_nil f rest)) chbCol ++ ")")) ∧
    ((addSumRows ws (f :: rest) occCol chbCol).cellValue
        ((f :: rest).getLast (List.cons_ne_nil f rest) + 4) (chbCol - 1)
      = Value.vstr "구상금액") := by
  set L := (f :: rest).getLast (List.cons_ne_nil f rest) with hL
  simp only [addSumRows]
  simp only [setCellValueSafe_noMerges, merges_setCell, hm]
  refine ⟨?_, ?_, ?_, ?_⟩
  · rw [cellValue_setCell, if_neg (by simp only [Prod.mk.injEq, not_and]; omega)]
    rw [cellValue_setCell, if_neg (by simp only [Prod.mk.injEq, not_and]; omega)]
    rw [cellValue_setCell, if_pos rfl]
  · rw [cellValue_setCell, if_neg (by simp only [Prod.mk.injEq, not_and]; omega)]
    rw [cellValue_setCell, if_neg (by simp only [Prod.mk.injEq, not_and]; omega)]
    rw [cellValue_setCell, if_neg (by simp only [Prod.mk.injEq, not_and]; omega)]
    rw [cellValue_setCell, if_pos rfl]
  · rw [cellValue_setCell, if_pos rfl]
  · rw [cellValue_setCell, if_neg (by simp only [Prod.mk.injEq, not_and]; omega)]
    rw [cellValue_setCell, if_pos rfl]

/-- Witness for `C7_sumRowsLayout` on the concrete data sheet. -/
theorem C7_sumRowsLayout_witness :
    ((addSumRows wsDataC7 [4, 5, 6] 3 5).cellValue
        ([4, 5, 6].getLast (List.cons_ne_nil 4 [5, 6]) + 3) 3
      = Value.vstr ("=SUM(" ++ coordinate 4 3 ++ ":"
          ++ coordinate ([4, 5, 6].getLast (List.cons_ne_nil 4 [5, 6])) 3 ++ ")")) ∧
    ((addSumRows wsDataC7 [4, 5, 6] 3 5).cellValue
        ([4, 5, 6].getLast (List.cons_ne_nil 4 [5, 6]) + 3) (3 - 1)
      = Value.vstr "발생금액") ∧
    ((addSumRows wsDataC7 [4, 5, 6] 3 5).cellValue
        ([4, 5, 6].getLast (List.cons_ne_nil 4 [5, 6]) + 4) 5
      = Value.vstr ("=SUM(" ++ coordinate 4 5 ++ ":"
          ++ coordinate ([4, 5, 6].getLast (List.cons_ne_nil 4 [5, 6])) 5 ++ ")")) ∧
    ((addSumRows wsDataC7 [4, 5, 6] 3 5).cellValue
        ([4, 5, 6].getLast (List.cons_ne_nil 4 [5, 6]) + 4) (5 - 1)
      = Value.vstr "구상금액") :=
  C7_sumRowsLayout wsDataC7 4 [5, 6] 3 5 rfl (by decide) (by decide)

/-! ## C8 — the last-data-row heuristic -/

theorem guessLoop_skip (ws : Worksheet) (col er : Nat) :
    ∀ (j a n s : Nat), j ≤ n →
      (∀ r, a ≤ r → r < a + j → isBlankNoneOrEmpty (ws.cellValue r col) = false) →
      guessLoop ws col er (List.range' a n) s
        = guessLoop ws col er (List.range' (a + j) (n - j)) (if j = 0 then s else 0) := by
  intro j
  induction j with
  | zero => intro a n s _ _; simp
  | succ k ih =>
    intro a n s hjn hnb
    match n, hjn with
    | n + 1, hjn =>
      rw [List.range'_succ]
      have ha : isBlankNoneOrEmpty (ws.cellValue a col) = false := hnb a le_rfl (by omega)
      simp only [guessLoop, ha]
      rw [if_neg (by simp)]
      have := ih (a + 1) n 0 (by omega) (fun r h1 h2 => hnb r (by omega) (by omega))
      rw [this]
      have h1 : a + 1 + k = a + (k + 1) := by omega
      have h2 : n - k = n + 1 - (k + 1) := by omega
      rw [h1, h2]
      by_cases hk : k = 0 <;> simp [hk]

theorem guessLoop_blankRun (ws : Worksheet) (col er : Nat) :
    ∀ (k a n s : Nat), 1 ≤ k → k ≤ n → s + k = er →
      (∀ r, a ≤ r → r < a + k → isBlankNoneOrEmpty (ws.cellValue r col) = true) →
      guessLoop ws col er (List.range' a n) s = some (a + k - 1 - er) := by
  intro k
  induction k with
  | zero => intro a n s h1; omega
  | succ k ih =>
    intro a n s _ hkn hser hb
    match n, hkn with
    | n + 1, hkn =>
      rw [List.range'_succ]
      have ha : isBlankNoneOrEmpty (ws.cellValue a col) = true := hb a le_rfl (by omega)
      simp only [guessLoop, ha]
      rw [if_pos trivial]
      by_cases hk : k = 0
      · subst hk
        rw [if_pos (by omega)]
        exact congrArg some (by omega)
      · rw [if_neg (by omega)]
        have := ih (a + 1) n (s + 1) (by omega) (by omega) (by omega)
          (fun r h1 h2 => hb r (by omega) (by omega))
        rw [this]
        exact congrArg some (by omega)

theorem guessLoop_none (ws : Worksheet) (col er start : Nat)
    (hnorun : ∀ a, start ≤ a → a + er ≤ ws.maxRow + 1 →
        ∃ r, a ≤ r ∧ r < a + er ∧ isBlankNoneOrEmpty (ws.cellValue r col) = false) :
    ∀ (n a s : Nat), a + n = ws.maxRow + 1 → s ≤ a → start ≤ a - s →
      (∀ r, a - s ≤ r → r < a → isBlankNoneOrEmpty (ws.cellValue r col) = true) →
      guessLoop ws col er (List.range' a n) s = none := by
  intro n
  induction n with
  | zero => intro a s _ _ _ _; simp [guessLoop]
  | succ n ih =>
    intro a s hmax hs hst hinv
    rw [List.range'_succ]
    by_cases ha : isBlankNoneOrEmpty (ws.cellValue a col) = true
    · simp only [guessLoop, ha]
      rw [if_pos trivial]
      by_cases hbreak : er ≤ s + 1
      · exfalso
        obtain ⟨r, hr1, hr2, hr3⟩ := hnorun (a + 1 - er) (by omega) (by omega)
        have : isBlankNoneOrEmpty (ws.cellValue r col) = true := by
          by_cases hra : r = a
          · rw [hra]; exact ha
          · exact hinv r (by omega) (by omega)
        rw [this] at hr3
        cases hr3
      · rw [if_neg hbreak]
        exact ih (a + 1) (s + 1) (by omega) (by omega) (by omega)
          (fun r h1 h2 => by
            by_cases hra : r = a
            · rw [hra]; exact ha
            · exact hinv r (by omega) (by omega))
    · simp only [guessLoop, ha]
      rw [if_neg (by simp [ha])]
      exact ih (a + 1) 0 (by omega) (by omega) (by omega) (fun r h1 h2 => by omega)

/-- C8: `guess_last_data_row` scans the anchor column downward from the
start row.  First part: when the column is non-blank through row `L` and
the following `empty_run` rows are blank (and fit within the sheet), the
scan breaks at row `L + empty_run` and returns `(current_row − empty_run)
= L` — in particular, with `data_start_row = 4`, `empty_run = 30`,
non-blank through row 40 and blank 41–70, it returns 40 (the witness).
Second part: when no window of `empty_run` consecutive rows inside
`[start, max_row]` is all-blank, the sheet's physical last row is used. -/
theorem C8_guessLastRow :
    (∀ (ws : Worksheet) (start L er col : Nat),
        1 ≤ er → start ≤ L → L + er ≤ ws.maxRow →
        (∀ r < L + 1, start ≤ r → isBlankNoneOrEmpty (ws.cellValue r col) = false) →
        (∀ r < L + er + 1, L + 1 ≤ r → isBlankNoneOrEmpty (ws.cellValue r col) = true) →
        guessLastDataRow ws start col er = L) ∧
    (∀ (ws : Worksheet) (start er col : Nat),
        1 ≤ er → start ≤ ws.maxRow →
        (∀ a < ws.maxRow + 2 - er, start ≤ a →
          ∃ r < a + er, a ≤ r ∧ isBlankNoneOrEmpty (ws.cellValue r col) = false) →
        guessLastDataRow ws start col er = ws.maxRow) := by
  constructor
  · intro ws start L er col her hstart hmax hnb hb
    simp only [guessLastDataRow]
    rw [guessLoop_skip ws col er (L + 1 - start) start (ws.maxRow + 1 - start) 0 (by omega)
      (fun r h1 h2 => hnb r (by omega) h1)]
    rw [if_neg (by omega)]
    have h1 : start + (L + 1 - start) = L + 1 := by omega
    have h2 : ws.maxRow + 1 - start - (L + 1 - start) = ws.maxRow - L := by omega
    rw [h1, h2]
    rw [guessLoop_blankRun ws col er er (L + 1) (ws.maxRow - L) 0 her (by omega) (by omega)
      (fun r hr1 hr2 => hb r (by omega) hr1)]
    have h3 : L + 1 + er - 1 - er = L := by omega
    rw [h3]
    simp only [Option.getD]
    omega
  · intro ws start er col her hsm hnorun
    simp only [guessLastDataRow]
    rw [guessLoop_none ws col er start
      (fun a ha1 ha2 => by
        obtain ⟨r, hr1, hr2, hr3⟩ := hnorun a (by omega) ha1
        exact ⟨r, hr2, hr1, hr3⟩)
      (ws.maxRow + 1 - start) start 0 (by omega) (by omega) (by omega)
      (fun r hq1 hq2 => by omega)]
    simp only [Option.getD]
    omega

/-- Witness for `C8_guessLastRow`: the spec's 40-row instance (break at a
30-blank run) and a no-run sheet falling back to its physical last row. -/
theorem C8_guessLastRow_witness :
    guessLastDataRow wsAnchor40 4 2 30 = 40 ∧
    guessLastDataRow wsNoRun 2 1 3 = 6 :=
  ⟨C8_guessLastRow.1 wsAnchor40 4 40 30 2 (by decide) (by decide) (by decide)
      (by decide) (by decide),
   C8_guessLastRow.2 wsNoRun 2 3 1 (by decide) (by decide) (by decide)⟩

/-! ## C9 — display evaluation never escalates, falls back to literal text -/

theorem displayValue_succ (m : Model) (fuel : Nat) (v : Value) (r c : Nat) :
    displayValue m (fuel + 1) v r c
      = displayValueWith m (evalSum m fuel) (evalSubtotal m fuel) (displayValue m fuel) v r c :=
  rfl

theorem readNumberFromCell_succ (m : Model) (fuel : Nat) (row col : Nat) :
    readNumberFromCell m (fuel + 1) row col
      = readNumberFromCellWith m (displayValue m fuel) row col :=
  rfl

/-- C9: `_display_value` is a total function of the cell value — the
embedding carries no exception and writes neither the overlay nor the
sheet (it takes the model and returns only a value).  A non-string value is
returned unchanged; a string that does not start with "=" (after strip) is
returned unchanged; and a formula string on which every supported
recogniser fails — the SUM branch (when dispatched), the SUBTOTAL branch
(when dispatched), the bare cell reference and the multiplicative
pattern — is returned as its literal text. -/
theorem C9_displayFallsBack (m : Model) (fuel r c : Nat) :
    (∀ v : Value, (∀ s, v ≠ Value.vstr s) → displayValue m (fuel + 1) v r c = v) ∧
    (∀ s : String, ¬ strStartsWith (pyStrip s) "=" = true →
        displayValue m (fuel + 1) (Value.vstr s) r c = Value.vstr s) ∧
    (∀ s : String, strStartsWith (pyStrip s) "=" = true →
        (strContainsSub (strToUpper (pyStrip s)) "SUM(" = true →
          evalSum m fuel (pyStrip s) = none) →
        (strContainsSub (strToUpper (pyStrip s)) "SUBTOTAL(9," = true →
          evalSubtotal m fuel (pyStrip s) = none) →
        bareRefParse (pyStrip s) = none →
        evalSimpleMulDiv m (pyStrip s) = none →
        displayValue m (fuel + 1) (Value.vstr s) r c = Value.vstr s) := by
  refine ⟨?_, ?_, ?_⟩
  · intro v hv
    rw [displayValue_succ]
    cases v with
    | vstr s => exact absurd rfl (hv s)
    | vnone => rfl
    | vbool b => rfl
    | vint n => rfl
    | vfloat q => rfl
  · intro s h
    have h' : strStartsWith (pyStrip s) "=" = false := by
      revert h; cases strStartsWith (pyStrip s) "=" <;> simp
    rw [displayValue_succ]
    simp only [displayValueWith, h']
    rfl
  · intro s h h1 h2 h3 h4
    rw [displayValue_succ]
    by_cases hsum : strContainsSub (strToUpper (pyStrip s)) "SUM(" = true
    · simp [displayValueWith, h, hsum, h1 hsum]
    · by_cases hsub : strContainsSub (strToUpper (pyStrip s)) "SUBTOTAL(9," = true
      · simp [displayValueWith, h, hsum, hsub, h2 hsub]
      · simp [displayValueWith, h, hsum, hsub, h3, h4]

/-- Witness for `C9_displayFallsBack`: an integer, a plain text and an
unsupported formula, all displayed unchanged. -/
theorem C9_displayFallsBack_witness :
    displayValue (mRangeABV 7 5 100) 1 (Value.vint 3) 2 2 = Value.vint 3 ∧
    displayValue (mRangeABV 7 5 100) 1 (Value.vstr "hello") 2 2 = Value.vstr "hello" ∧
    displayValue (mRangeABV 7 5 100) 1 (Value.vstr "=FOO(1)") 2 2 = Value.vstr "=FOO(1)" :=
  ⟨(C9_displayFallsBack (mRangeABV 7 5 100) 0 2 2).1 (Value.vint 3)
      (fun s h => Value.noConfusion h),
   (C9_displayFallsBack (mRangeABV 7 5 100) 0 2 2).2.1 "hello" (by decide),
   (C9_displayFallsBack (mRangeABV 7 5 100) 0 2 2).2.2 "=FOO(1)" (by decide) (by decide)
      (by decide) (by decide) (by decide)⟩

/-! ## C10 — empty / unparseable referenced cells contribute exactly 0 -/

/-- C10: in each numeric-evaluation path — `_read_number_from_cell` (used by
SUM and SUBTOTAL, and by a bare reference or formula read through it) and
`_read_number` (used by the multiplicative pattern) — a referenced cell
that is empty, or whose string content does not parse as a number after
stripping and removing commas (including a formula string whose display
evaluation yields nothing numeric), contributes exactly `0.0` instead of
failing the evaluation. -/
theorem C10_unparseableReadsZero (m : Model) (fuel : Nat) :
    (∀ r c, effectiveValue m (canonicalCell m.ws r c) = Value.vnone →
        readNumberFromCell m (fuel + 1) r c = 0) ∧
    (∀ r c s, effectiveValue m (canonicalCell m.ws r c) = Value.vstr s →
        ¬ strStartsWith (pyStrip s) "=" = true →
        pyParseFloat (strReplace (pyStrip s) "," "") = none →
        readNumberFromCell m (fuel + 1) r c = 0) ∧
    (∀ r c s, effectiveValue m (canonicalCell m.ws r c) = Value.vstr s →
        (displayValue m fuel (Value.vstr s) (canonicalCell m.ws r c).1
            (canonicalCell m.ws r c).2).toNum? = none →
        pyParseFloat (strReplace (pyStrip s) "," "") = none →
        readNumberFromCell m (fuel + 1) r c = 0) ∧
    (∀ addr r c, addrToRowColUpperOnly addr = some (r, c) →
        effectiveValue m (canonicalCell m.ws r c) = Value.vnone →
        readNumber m addr = 0) ∧
    (∀ addr r c s, addrToRowColUpperOnly addr = some (r, c) →
        effectiveValue m (canonicalCell m.ws r c) = Value.vstr s →
        pyParseFloat (strReplace (pyStrip s) "," "") = none →
        readNumber m addr = 0) := by
  refine ⟨?_, ?_, ?_, ?_, ?_⟩
  · intro r c h
    rw [readNumberFromCell_succ]
    simp only [readNumberFromCellWith, h]
  · intro r c s h hne hparse
    have h' : strStartsWith (pyStrip s) "=" = false := by
      revert hne; cases strStartsWith (pyStrip s) "=" <;> simp
    rw [readNumberFromCell_succ]
    simp only [readNumberFromCellWith, h, h', hparse]
    rfl
  · intro r c s h hdv hparse
    rw [readNumberFromCell_succ]
    by_cases hf : strStartsWith (pyStrip s) "=" = true
    · simp only [readNumberFromCellWith, h, hf, hdv, hparse]
      rfl
    · have h' : strStartsWith (pyStrip s) "=" = false := by
        revert hf; cases strStartsWith (pyStrip s) "=" <;> simp
      simp only [readNumberFromCellWith, h, h', hparse]
      rfl
  · intro addr r c haddr h
    simp only [readNumber, haddr, h]
  · intro addr r c s haddr h hparse
    simp only [readNumber, haddr, h, hparse]
    rfl

/-- Witness for `C10_unparseableReadsZero` on the reference-layout sheet:
an empty cell and the header texts all read as `0.0` in every path. -/
theorem C10_unparseableReadsZero_witness :
    readNumberFromCell mHeader3 1 2 2 = 0 ∧
    readNumberFromCell mHeader3 1 3 1 = 0 ∧
    readNumberFromCell mHeader3 1 3 3 = 0 ∧
    readNumber mHeader3 "B9" = 0 ∧
    readNumber mHeader3 "A3" = 0 :=
  ⟨(C10_unparseableReadsZero mHeader3 0).1 2 2 (by decide),
   (C10_unparseableReadsZero mHeader3 0).2.1 3 1 "Vehicle" (by decide) (by decide) (by decide),
   (C10_unparseableReadsZero mHeader3 0).2.2.1 3 3 "구상금액" (by decide) (by decide) (by decide),
   (C10_unparseableReadsZero mHeader3 0).2.2.2.1 "B9" 9 2 (by decide) (by decide),
   (C10_unparseableReadsZero mHeader3 0).2.2.2.2 "A3" 3 1 "Vehicle" (by decide) (by decide)
      (by decide)⟩


/-! ## C4 — the undo/redo round trip -/


theorem dequePush_eq_cons (stack : List EditRecord) (rec : EditRecord)
    (h : stack.length < 100) : dequePush stack rec = rec :: stack := by
  simp only [dequePush]
  rw [List.take_of_length_le]
  simp
  omega

theorem applyEdit_change (m : Model) (e : EditInput)
    (hu : m.isUndoing = false) (hok : editOk m e = true) :
    applyEdit m e =
      { m with
          dirty := insertEdit m.ws m.dirty e
          undoStack := dequePush m.undoStack
            ⟨(canonicalCell m.ws e.r e.c).1, (canonicalCell m.ws e.r e.c).2,
             effectiveOld m (canonicalCell m.ws e.r e.c), parseUserInput e.text⟩
          redoStack := [] } := by
  simp only [editOk, Bool.and_eq_true, Bool.not_eq_true'] at hok
  obtain ⟨hsucc, hch⟩ := hok
  obtain ⟨h1, h2, h3⟩ := setData_success_guards m e.r e.c e.text hsucc
  unfold applyEdit
  rw [setData_push_eq m e.r e.c e.text h1 h2 h3 (by rw [hu, hch]; rfl)]
  rfl

theorem undo_eq (m : Model) (u : EditRecord) (U : List EditRecord)
    (h : m.undoStack = u :: U) :
    (undo m).1 =
      { m with
          undoStack := U
          redoStack := u :: m.redoStack
          dirty := recApplyOld m.dirty u
          isUndoing := false } := by
  cases m
  simp only at h
  subst h
  rfl

theorem redo_eq (m : Model) (u : EditRecord) (R : List EditRecord)
    (h : m.redoStack = u :: R) :
    (redo m).1 =
      { m with
          redoStack := R
          undoStack := u :: m.undoStack
          dirty := recApplyNew m.dirty u
          isUndoing := false } := by
  cases m
  simp only at h
  subst h
  rfl

theorem undoN_spec : ∀ (U : List EditRecord) (m : Model),
    m.undoStack = U → m.isUndoing = false →
    undoN U.length m =
      { m with
          dirty := U.foldl recApplyOld m.dirty
          undoStack := []
          redoStack := U.reverse ++ m.redoStack
          isUndoing := false } := by
  intro U
  induction U with
  | nil =>
    intro m hU hu
    cases m
    simp only at hU hu
    subst hU; subst hu
    rfl
  | cons u U ih =>
    intro m hU hu
    have hstep : undoN (u :: U).length m = undoN U.length (undo m).1 := rfl
    rw [hstep, undo_eq m u U hU, ih _ rfl rfl]
    simp [List.foldl, List.reverse_cons, List.append_assoc]

theorem redoN_spec : ∀ (R : List EditRecord) (m : Model),
    m.redoStack = R → m.isUndoing = false →
    redoN R.length m =
      { m with
          dirty := R.foldl recApplyNew m.dirty
          redoStack := []
          undoStack := R.reverse ++ m.undoStack
          isUndoing := false } := by
  intro R
  induction R with
  | nil =>
    intro m hR hu
    cases m
    simp only at hR hu
    subst hR; subst hu
    rfl
  | cons u R ih =>
    intro m hR hu
    have hstep : redoN (u :: R).length m = redoN R.length (redo m).1 := rfl
    rw [hstep, redo_eq m u R hR, ih _ rfl rfl]
    simp [List.foldl, List.reverse_cons, List.append_assoc]



theorem applyEdits_spec : ∀ (es : List EditInput) (m : Model),
    m.isUndoing = false → m.redoStack = [] →
    editsAllChange m es = true →
    es.length + m.undoStack.length ≤ 100 →
    (applyEdits m es).ws = m.ws ∧
    (applyEdits m es).isUndoing = false ∧
    (applyEdits m es).redoStack = [] ∧
    (applyEdits m es).undoStack.map recKeyNew
      = (es.map (editKeyNew m.ws)).reverse ++ m.undoStack.map recKeyNew ∧
    (applyEdits m es).dirty = es.foldl (insertEdit m.ws) m.dirty := by
  intro es
  induction es with
  | nil =>
    intro m hu hr _ _
    exact ⟨rfl, hu, hr, by simp [applyEdits], rfl⟩
  | cons e es ih =>
    intro m hu hr hok hlen
    simp only [editsAllChange, Bool.and_eq_true] at hok
    obtain ⟨hok1, hok2⟩ := hok
    have happ : applyEdits m (e :: es) = applyEdits (applyEdit m e) es := rfl
    have hmid := applyEdit_change m e hu hok1
    have hmidu : (applyEdit m e).isUndoing = false := by rw [hmid]; exact hu
    have hmidr : (applyEdit m e).redoStack = [] := by rw [hmid]
    have hmidw : (applyEdit m e).ws = m.ws := by rw [hmid]
    have hpush : dequePush m.undoStack
        ⟨(canonicalCell m.ws e.r e.c).1, (canonicalCell m.ws e.r e.c).2,
         effectiveOld m (canonicalCell m.ws e.r e.c), parseUserInput e.text⟩
        = (⟨(canonicalCell m.ws e.r e.c).1, (canonicalCell m.ws e.r e.c).2,
            effectiveOld m (canonicalCell m.ws e.r e.c), parseUserInput e.text⟩ : EditRecord)
          :: m.undoStack := by
      apply dequePush_eq_cons
      simp only [List.length_cons] at hlen
      omega
    have hmids : (applyEdit m e).undoStack.length = m.undoStack.length + 1 := by
      rw [hmid]
      simp only [hpush]
      simp
    have IH := ih (applyEdit m e) hmidu hmidr hok2
      (by rw [hmids]; simp only [List.length_cons] at hlen; omega)
    obtain ⟨iw, iu, ir, is_, id_⟩ := IH
    refine ⟨iw.trans hmidw, iu, ir, ?_, ?_⟩
    · have is2 : List.map recKeyNew (applyEdits m (e :: es)).undoStack
          = (List.map (editKeyNew (applyEdit m e).ws) es).reverse
            ++ List.map recKeyNew (applyEdit m e).undoStack := is_
      rw [is2, hmidw, hmid]
      simp only [hpush, List.map_cons]
      have hrec : recKeyNew ⟨(canonicalCell m.ws e.r e.c).1, (canonicalCell m.ws e.r e.c).2,
          effectiveOld m (canonicalCell m.ws e.r e.c), parseUserInput e.text⟩
          = editKeyNew m.ws e := rfl
      rw [hrec]
      simp [List.reverse_cons, List.append_assoc]
    · have id2 : (applyEdits m (e :: es)).dirty
          = List.foldl (insertEdit (applyEdit m e).ws) (applyEdit m e).dirty es := id_
      rw [id2, hmidw, hmid]
      rfl



theorem alGet_foldl_insert {α : Type} (key : α → Nat × Nat) (val : α → Value) :
    ∀ (l : List α) (d : List ((Nat × Nat) × Value)) (k : Nat × Nat),
      alGet (l.foldl (fun d x => alInsert d (key x) (val x)) d) k
        = match l.reverse.find? (fun x => decide (key x = k)) with
          | some x => some (val x)
          | none => alGet d k := by
  intro l
  induction l with
  | nil => intro d k; rfl
  | cons x l ih =>
    intro d k
    rw [List.foldl_cons, ih, List.reverse_cons, List.find?_append]
    cases hfind : l.reverse.find? (fun y => decide (key y = k)) with
    | some y => simp
    | none =>
      by_cases hk : key x = k
      · subst hk
        simp [List.find?, alGet_alInsert_self]
      · have hdk : (decide (key x = k)) = false := by simp [hk]
        simp only [List.find?, hdk, Option.or_none]
        rw [alGet_alInsert_other _ _ _ _ (fun hh => hk hh.symm)]

theorem alGet_foldl_recApplyOld_notMem :
    ∀ (U : List EditRecord) (d : List ((Nat × Nat) × Value)) (k : Nat × Nat),
      (∀ u ∈ U, (u.row, u.col) ≠ k) →
      alGet (U.foldl recApplyOld d) k = alGet d k := by
  intro U
  induction U with
  | nil => intro d k _; rfl
  | cons u U ih =>
    intro d k h
    rw [List.foldl_cons, ih _ _ (fun x hx => h x (List.mem_cons_of_mem u hx))]
    have hu : (u.row, u.col) ≠ k := h u (List.mem_cons_self u U)
    simp only [recApplyOld]
    by_cases ho : u.oldValue = Value.vnone
    · rw [if_pos ho, alGet_alErase_other _ _ _ (fun hh => hu hh.symm)]
    · rw [if_neg ho, alGet_alInsert_other _ _ _ _ (fun hh => hu hh.symm)]

theorem find?_transport (ws : Worksheet) :
    ∀ (U : List EditRecord) (l2 : List EditInput),
      U.map recKeyNew = l2.map (editKeyNew ws) → ∀ (k : Nat × Nat),
      (U.find? (fun u => decide ((u.row, u.col) = k))).map recKeyNew
        = (l2.find? (fun e => decide (canonicalCell ws e.r e.c = k))).map (editKeyNew ws) := by
  intro U
  induction U with
  | nil =>
    intro l2 h k
    cases l2 with
    | nil => rfl
    | cons e l2 => simp at h
  | cons u U ih =>
    intro l2 h k
    cases l2 with
    | nil => simp at h
    | cons e l2 =>
      simp only [List.map_cons, List.cons.injEq] at h
      obtain ⟨hhead, htail⟩ := h
      have hkey : (u.row, u.col) = canonicalCell ws e.r e.c := by
        have := congrArg Prod.fst hhead
        exact this
      simp only [List.find?, hkey]
      by_cases hk : canonicalCell ws e.r e.c = k
      · simp only [hk, decide_True]
        simp [hhead]
      · have : (decide (canonicalCell ws e.r e.c = k)) = false := by simp [hk]
        simp only [this]
        exact ih l2 htail k

theorem alGet_foldl_recApplyNew (U : List EditRecord)
    (d : List ((Nat × Nat) × Value)) (k : Nat × Nat) :
    alGet (U.foldl recApplyNew d) k
      = match U.reverse.find? (fun u => decide ((u.row, u.col) = k)) with
        | some u => some u.newValue
        | none => alGet d k := by
  have hfn : (fun d (x : EditRecord) => alInsert d (x.row, x.col) x.newValue)
      = recApplyNew := by
    funext d x
    rfl
  rw [← hfn, alGet_foldl_insert]
  cases U.reverse.find? (fun u => decide ((u.row, u.col) = k)) <;> rfl

theorem alGet_foldl_insertEdit (ws : Worksheet) (es : List EditInput)
    (d : List ((Nat × Nat) × Value)) (k : Nat × Nat) :
    alGet (es.foldl (insertEdit ws) d) k
      = match es.reverse.find? (fun e => decide (canonicalCell ws e.r e.c = k)) with
        | some e => some (parseUserInput e.text)
        | none => alGet d k := by
  have hfn : (fun d (e : EditInput) => alInsert d (canonicalCell ws e.r e.c) (parseUserInput e.text))
      = insertEdit ws := by
    funext d e
    rfl
  rw [← hfn, alGet_foldl_insert]
  cases es.reverse.find? (fun e => decide (canonicalCell ws e.r e.c = k)) <;> rfl

theorem alEquiv_of_pointwise {κ α : Type} [DecidableEq κ] [DecidableEq α]
    (d e : List (κ × α)) (h : ∀ k, alGet d k = alGet e k) : alEquiv d e = true := by
  simp [alEquiv, List.all_eq_true, h]

/-- C4: starting from a fresh model (empty overlay, empty history), after
any sequence of successful value-changing edits E1..En with n ≤ 100 (the
stack capacity, so nothing is evicted), performing n `undo()` calls
followed by n `redo()` calls yields a dirty overlay with the same key set
and the same value at every key as the overlay immediately after E1..En. -/
theorem C4_undoRedoRoundtrip (m0 : Model) (es : List EditInput)
    (hd : m0.dirty = []) (hus : m0.undoStack = []) (hrs : m0.redoStack = [])
    (hu : m0.isUndoing = false)
    (hok : editsAllChange m0 es = true) (hlen : es.length ≤ 100) :
    alEquiv (redoN es.length (undoN es.length (applyEdits m0 es))).dirty
      (applyEdits m0 es).dirty = true := by
  obtain ⟨hw, hiu, hred, hmap, hdirty⟩ := applyEdits_spec es m0 hu hrs hok
    (by rw [hus]; simpa using hlen)
  rw [hus, List.map_nil, List.append_nil, ← List.map_reverse] at hmap
  have hlenU : (applyEdits m0 es).undoStack.length = es.length := by
    have hl := congrArg List.length hmap
    simpa using hl
  rw [← hlenU]
  rw [undoN_spec (applyEdits m0 es).undoStack (applyEdits m0 es) rfl hiu]
  rw [hred, List.append_nil]
  have hlenR : (applyEdits m0 es).undoStack.length
      = (applyEdits m0 es).undoStack.reverse.length := by simp
  rw [hlenR]
  rw [redoN_spec (applyEdits m0 es).undoStack.reverse _ rfl rfl]
  apply alEquiv_of_pointwise
  intro k
  show alGet ((applyEdits m0 es).undoStack.reverse.foldl recApplyNew
      ((applyEdits m0 es).undoStack.foldl recApplyOld (applyEdits m0 es).dirty)) k
    = alGet (applyEdits m0 es).dirty k
  rw [alGet_foldl_recApplyNew, List.reverse_reverse]
  have htrans := find?_transport m0.ws (applyEdits m0 es).undoStack es.reverse hmap k
  cases hF : (applyEdits m0 es).undoStack.find? (fun u => decide ((u.row, u.col) = k)) with
  | none =>
    have hout : ∀ u ∈ (applyEdits m0 es).undoStack, (u.row, u.col) ≠ k := by
      intro u hmem
      have := List.find?_eq_none.1 hF u hmem
      simpa using this
    exact alGet_foldl_recApplyOld_notMem _ _ _ hout
  | some u =>
    rw [hF] at htrans
    cases hF2 : es.reverse.find? (fun e => decide (canonicalCell m0.ws e.r e.c = k)) with
    | none => rw [hF2] at htrans; exact Option.noConfusion htrans
    | some e0 =>
      rw [hF2] at htrans
      rw [Option.map_some', Option.map_some'] at htrans
      have hED : alGet (applyEdits m0 es).dirty k
          = match es.reverse.find? (fun e => decide (canonicalCell m0.ws e.r e.c = k)) with
            | some e => some (parseUserInput e.text)
            | none => alGet ([] : List ((Nat × Nat) × Value)) k := by
        rw [hdirty, hd]
        exact alGet_foldl_insertEdit m0.ws es [] k
      rw [hED, hF2]
      have hnv : u.newValue = parseUserInput e0.text :=
        congrArg Prod.snd (Option.some.inj htrans)
      show (some u.newValue : Option Value) = some (parseUserInput e0.text)
      rw [hnv]


/-- Witness for `C4_undoRedoRoundtrip`: two value-changing edits on the
concrete model — a numeric overwrite and then a clearing edit (storing an
explicit `None` in the overlay) — undone twice and redone twice. -/
theorem C4_undoRedoRoundtrip_witness :
    alEquiv (redoN 2 (undoN 2 (applyEdits mPlain5 [⟨2, 1, "7"⟩, ⟨2, 1, ""⟩]))).dirty
      (applyEdits mPlain5 [⟨2, 1, "7"⟩, ⟨2, 1, ""⟩]).dirty = true :=
  C4_undoRedoRoundtrip mPlain5 [⟨2, 1, "7"⟩, ⟨2, 1, ""⟩]
    rfl rfl rfl rfl (by decide) (by decide)

end QcTask
